import Mathlib

/-!
# Shopping basket backend: cart / order lifecycle

A shallow embedding of the handlers of `backend/main.go` that touch the
`cart`, `cart_item` and `order` tables, over an explicit relational store.

* A table is the list of its rows in insertion order.
* Primary keys are SQLite `AUTOINCREMENT` keys: a new row gets one more than
  the largest key the table has ever held.
* `time.Time` values are natural numbers; every handler that writes a
  `CreatedAt` column receives the clock reading `now`.
* Handlers receive the authenticated user's id (the `ID` of the `User` that
  the auth middleware stored in the context) and the decoded request body.
* The store is available: a store call errs only where it finds no row or a
  constraint of the schema rejects the write.
-/

namespace ShoppingBasket

/-! ## Data model -/

/-- Catalog row (`type Item struct`). -/
structure Item where
  ID : Nat
  Name : String
  Status : String
  CreatedAt : Nat
deriving DecidableEq, Repr

/-- Cart row (`type Cart struct`); `UserID` carries a unique index. -/
structure Cart where
  ID : Nat
  UserID : Nat
  Name : String
  Status : String
  CreatedAt : Nat
deriving DecidableEq, Repr

/-- Association row (`type CartItem struct`). -/
structure CartItem where
  ID : Nat
  CartID : Nat
  ItemID : Nat
deriving DecidableEq, Repr

/-- Order row (`type Order struct`). -/
structure Order where
  ID : Nat
  CartID : Nat
  UserID : Nat
  CreatedAt : Nat
deriving DecidableEq, Repr

/-- Response body of the cart endpoints (`type CartWithItems struct`). -/
structure CartWithItems where
  Cart : Cart
  CartItems : List CartItem
deriving DecidableEq, Repr

/-- One line of an order summary (`type OrderItemDTO struct`). -/
structure OrderItemDTO where
  ItemID : Nat
  Name : String
  Qty : Nat
deriving DecidableEq, Repr

/-- Order summary (`type OrderDTO struct`). -/
structure OrderDTO where
  ID : Nat
  CreatedAt : Nat
  Status : String
  Items : List OrderItemDTO
deriving DecidableEq, Repr

/-- The relational store behind the global `db` handle: the four tables the
handlers use, and for each the largest key it has ever issued. -/
structure Store where
  items : List Item
  carts : List Cart
  cartItems : List CartItem
  orders : List Order
  itemSeq : Nat
  cartSeq : Nat
  cartItemSeq : Nat
  orderSeq : Nat
deriving DecidableEq, Repr

/-- The store right after `AutoMigrate` on a fresh database file. -/
def emptyStore : Store :=
  { items := [], carts := [], cartItems := [], orders := [],
    itemSeq := 0, cartSeq := 0, cartItemSeq := 0, orderSeq := 0 }

/-- What a handler hands to `c.JSON`: a status code with a body, or a status
code with `gin.H{"error": msg}`. -/
inductive Resp (α : Type) where
  | ok (code : Nat) (body : α)
  | error (code : Nat) (msg : String)
deriving DecidableEq, Repr

/-- Outcome of a store call that the caller checks (`.Error`). -/
inductive DbResult (α : Type) where
  | ok (val : α)
  | err (msg : String)
deriving DecidableEq, Repr

/-! ## Store primitives -/

/-- Row selected by `db.Where(p).First(&row)`: among the rows that satisfy
`p`, the one with the least primary key; `none` is `ErrRecordNotFound`. -/
def firstWhere {α : Type} (key : α → Nat) (p : α → Bool) : List α → Option α
  | [] => none
  | x :: xs =>
    if p x then
      match firstWhere key p xs with
      | some y => if key y < key x then some y else some x
      | none => some x
    else firstWhere key p xs

/-- Largest key among `ids`, `0` for an empty table. -/
def maxID (ids : List Nat) : Nat := ids.foldr max 0

/-- Key given to the next inserted row of a table that has issued keys up
to `seq` and currently holds the keys `ids`. -/
def nextID (seq : Nat) (ids : List Nat) : Nat := max seq (maxID ids) + 1

/-- Insert of `db.Create(&Item{Name: name, Status: status})`. -/
def createItem (name status : String) (now : Nat) (s : Store) : Store × Item :=
  let row : Item :=
    { ID := nextID s.itemSeq (s.items.map Item.ID), Name := name, Status := status,
      CreatedAt := now }
  ({ s with items := s.items ++ [row], itemSeq := row.ID }, row)

/-- Insert of `db.Create(&Cart{UserID: userID, Status: "ACTIVE"})`. The unique
index on `user_id` rejects a second cart of the same user. -/
def createCart (userID : Nat) (now : Nat) (s : Store) : Store × DbResult Cart :=
  if s.carts.any (fun c => c.UserID == userID) then
    (s, .err "UNIQUE constraint failed: carts.user_id")
  else
    let row : Cart :=
      { ID := nextID s.cartSeq (s.carts.map Cart.ID), UserID := userID, Name := "",
        Status := "ACTIVE", CreatedAt := now }
    ({ s with carts := s.carts ++ [row], cartSeq := row.ID }, .ok row)

/-- Insert of `db.Create(&CartItem{CartID: cartID, ItemID: itemID})`. -/
def createCartItem (cartID itemID : Nat) (s : Store) : Store :=
  let row : CartItem :=
    { ID := nextID s.cartItemSeq (s.cartItems.map CartItem.ID), CartID := cartID,
      ItemID := itemID }
  { s with cartItems := s.cartItems ++ [row], cartItemSeq := row.ID }

/-- Insert of `db.Create(&Order{CartID: cartID, UserID: userID})`. -/
def createOrder (cartID userID : Nat) (now : Nat) (s : Store) : Store × Order :=
  let row : Order :=
    { ID := nextID s.orderSeq (s.orders.map Order.ID), CartID := cartID, UserID := userID,
      CreatedAt := now }
  ({ s with orders := s.orders ++ [row], orderSeq := row.ID }, row)

/-- Write of `db.Save(&cart)`: every column of the row keyed `cart.ID` is
overwritten with the fields of `cart` (rows carry store-issued, non-zero
keys). -/
def saveCart (cart : Cart) (s : Store) : Store :=
  { s with carts := s.carts.map (fun c => if c.ID = cart.ID then cart else c) }

/-- Write of `db.Model(&cart).Update("status", status)`. -/
def updateCartStatus (cartID : Nat) (status : String) (s : Store) : Store :=
  { s with carts := s.carts.map (fun c => if c.ID = cartID then { c with Status := status } else c) }

/-- Write of `db.Where("cart_id = ?", cartID).Delete(&CartItem{})`. -/
def deleteCartItemsOf (cartID : Nat) (s : Store) : Store :=
  { s with cartItems := s.cartItems.filter (fun ci => ci.CartID != cartID) }

/-- Write of `db.Delete(&ci)`: the row keyed `ci.ID` goes. -/
def deleteCartItemRow (ci : CartItem) (s : Store) : Store :=
  { s with cartItems := s.cartItems.filter (fun r => r.ID != ci.ID) }

/-- Rows of `db.Where("cart_id = ?", cartID).Find(&cartItems)`. -/
def cartItemsOf (cartID : Nat) (s : Store) : List CartItem :=
  s.cartItems.filter (fun ci => ci.CartID == cartID)

/-- Row of `db.First(&item, id)`. -/
def findItem (id : Nat) (s : Store) : Option Item :=
  firstWhere Item.ID (fun it => it.ID == id) s.items

/-- Row of `db.First(&cart, id)`. -/
def findCart (id : Nat) (s : Store) : Option Cart :=
  firstWhere Cart.ID (fun c => c.ID == id) s.carts

/-- Row of `db.Where("user_id = ?", userID).First(&cart)`. -/
def findUserCart (userID : Nat) (s : Store) : Option Cart :=
  firstWhere Cart.ID (fun c => c.UserID == userID) s.carts

/-- Row of `db.Where("user_id = ? AND status = ?", userID, "ACTIVE").First(&cart)`. -/
def findActiveCart (userID : Nat) (s : Store) : Option Cart :=
  firstWhere Cart.ID (fun c => c.UserID == userID && c.Status == "ACTIVE") s.carts

/-- Row of `db.Where("cart_id = ? AND item_id = ?", cartID, itemID).First(&existing)`. -/
def findCartItem (cartID itemID : Nat) (s : Store) : Option CartItem :=
  firstWhere CartItem.ID (fun ci => ci.CartID == cartID && ci.ItemID == itemID) s.cartItems

/-! ## Handlers -/

/-- The seeding half of `initDB`: five catalog rows when the catalog is empty. -/
def initDB (now : Nat) (s : Store) : Store :=
  if s.items.length = 0 then
    let s := (createItem "Apple" "ACTIVE" now s).1
    let s := (createItem "Milk" "ACTIVE" now s).1
    let s := (createItem "Bread" "ACTIVE" now s).1
    let s := (createItem "Eggs" "ACTIVE" now s).1
    (createItem "Rice" "ACTIVE" now s).1
  else s

/-- Handler `postItems`, on the trimmed `name` and `status` of the body. -/
def postItems (name status : String) (now : Nat) (s : Store) : Store × Resp Item :=
  if name = "" then (s, .error 400 "name required")
  else
    let status := if status = "" then "ACTIVE" else status
    let r := createItem name status now s
    (r.1, .ok 201 r.2)

/-- Function `ensureActiveCart`. -/
def ensureActiveCart (userID : Nat) (now : Nat) (s : Store) : Store × DbResult Cart :=
  match findUserCart userID s with
  | some cart =>
    if cart.Status = "ORDERED" then
      let cart := { cart with Status := "ACTIVE", Name := "" }
      let s := saveCart cart s
      let s := deleteCartItemsOf cart.ID s
      (s, .ok cart)
    else (s, .ok cart)
  | none => createCart userID now s

/-- Body of `postCarts`: `itemId` and `itemIds`, absent fields being `0` and
the empty list. -/
structure PostCartsBody where
  ItemID : Nat
  ItemIDs : List Nat
deriving DecidableEq, Repr

/-- The list `ids` that `postCarts` iterates over. -/
def PostCartsBody.ids (body : PostCartsBody) : List Nat :=
  if body.ItemID ≠ 0 then body.ItemIDs ++ [body.ItemID] else body.ItemIDs

/-- The `for _, id := range ids` loop of `postCarts`; `false` is the early
return on an id that is no catalog row. -/
def postCartsLoop (cart : Cart) : List Nat → Store → Store × Bool
  | [], s => (s, true)
  | id :: rest, s =>
    match findItem id s with
    | none => (s, false)
    | some _ =>
      match findCartItem cart.ID id s with
      | some _ => postCartsLoop cart rest s
      | none => postCartsLoop cart rest (createCartItem cart.ID id s)

/-- Handler `postCarts`. -/
def postCarts (u : Nat) (body : PostCartsBody) (now : Nat) (s : Store) :
    Store × Resp CartWithItems :=
  if body.ItemID = 0 ∧ body.ItemIDs.length = 0 then
    (s, .error 400 "itemId or itemIds required")
  else
    match ensureActiveCart u now s with
    | (s, .err _) => (s, .error 500 "could not create cart")
    | (s, .ok cart) =>
      match postCartsLoop cart body.ids s with
      | (s, false) => (s, .error 400 "invalid item id")
      | (s, true) => (s, .ok 200 { Cart := cart, CartItems := cartItemsOf cart.ID s })

/-- Handler `getMyCart`. -/
def getMyCart (u : Nat) (now : Nat) (s : Store) : Store × Resp CartWithItems :=
  match ensureActiveCart u now s with
  | (s, .err _) => (s, .error 500 "could not get cart")
  | (s, .ok cart) => (s, .ok 200 { Cart := cart, CartItems := cartItemsOf cart.ID s })

/-- Handler `postOrders`, on the `cartId` of the body; the body of a success
is the `orderId`. -/
def postOrders (u : Nat) (cartID : Nat) (now : Nat) (s : Store) : Store × Resp Nat :=
  if cartID = 0 then (s, .error 400 "cartId required")
  else
    match findCart cartID s with
    | none => (s, .error 400 "cart not found")
    | some cart =>
      if cart.UserID ≠ u then (s, .error 403 "not your cart")
      else if cart.Status = "ORDERED" then (s, .error 400 "cart already ordered")
      else if (cartItemsOf cart.ID s).length = 0 then (s, .error 400 "cart is empty")
      else
        let r := createOrder cart.ID u now s
        let s := updateCartStatus cart.ID "ORDERED" r.1
        (s, .ok 201 r.2.ID)

/-- Rows of `db.Where("user_id = ?", u).Order("id desc").Find(&orders)`. -/
def ordersOf (u : Nat) (s : Store) : List Order :=
  (s.orders.filter (fun o => o.UserID == u)).insertionSort (fun a b => b.ID ≤ a.ID)

/-- The step `qtyMap[k]++` on a map kept as an association list. -/
def qtyBump : List (Nat × Nat) → Nat → List (Nat × Nat)
  | [], k => [(k, 1)]
  | (k', q) :: rest, k => if k' = k then (k', q + 1) :: rest else (k', q) :: qtyBump rest k

/-- The `qtyMap` that `getMyOrders` builds from the rows of one cart. -/
def qtyMap (cartItems : List CartItem) : List (Nat × Nat) :=
  cartItems.foldl (fun m ci => qtyBump m ci.ItemID) []

/-- One pass of the `for itemID, qty := range qtyMap` loop of `getMyOrders`. -/
def orderItemDTO (s : Store) (entry : Nat × Nat) : OrderItemDTO :=
  let name := match findItem entry.1 s with
    | some it => it.Name
    | none => "Unknown"
  { ItemID := entry.1, Name := name, Qty := entry.2 }

/-- One pass of the `for _, o := range orders` loop of `getMyOrders`. Go
leaves the iteration order of `qtyMap` open; here the lines come out in the
order the item ids were first met. -/
def orderDTO (s : Store) (o : Order) : OrderDTO :=
  { ID := o.ID, CreatedAt := o.CreatedAt, Status := "PLACED",
    Items := (qtyMap (cartItemsOf o.CartID s)).map (orderItemDTO s) }

/-- Handler `getMyOrders`; it only reads the store. -/
def getMyOrders (u : Nat) (s : Store) : Resp (List OrderDTO) :=
  .ok 200 ((ordersOf u s).map (orderDTO s))

/-- Handler `deleteCartItem`, on the `itemId` path parameter once parsed. -/
def deleteCartItem (u : Nat) (itemID : Nat) (s : Store) : Store × Resp CartWithItems :=
  if itemID = 0 then (s, .error 400 "invalid itemId")
  else
    match findActiveCart u s with
    | none => (s, .error 404 "no active cart")
    | some cart =>
      match findCartItem cart.ID itemID s with
      | none => (s, .error 404 "item not found in cart")
      | some ci =>
        let s := deleteCartItemRow ci s
        (s, .ok 200 { Cart := cart, CartItems := cartItemsOf cart.ID s })

/-! ## Operation sequences -/

/-- A call of one of the operations of the cart / order lifecycle. -/
inductive Op where
  | ensureActiveCart (u now : Nat)
  | postCarts (u : Nat) (body : PostCartsBody) (now : Nat)
  | getMyCart (u now : Nat)
  | postOrders (u cartID now : Nat)
  | getMyOrders (u : Nat)
  | deleteCartItem (u itemID : Nat)
  | postItems (name status : String) (now : Nat)
  | initDB (now : Nat)

/-- The store an operation leaves behind. -/
def Op.run : Op → Store → Store
  | .ensureActiveCart u now, s => (ShoppingBasket.ensureActiveCart u now s).1
  | .postCarts u body now, s => (ShoppingBasket.postCarts u body now s).1
  | .getMyCart u now, s => (ShoppingBasket.getMyCart u now s).1
  | .postOrders u cartID now, s => (ShoppingBasket.postOrders u cartID now s).1
  | .getMyOrders _, s => s
  | .deleteCartItem u itemID, s => (ShoppingBasket.deleteCartItem u itemID s).1
  | .postItems name status now, s => (ShoppingBasket.postItems name status now s).1
  | .initDB now, s => ShoppingBasket.initDB now s

/-- Stores reachable from the empty store by a sequence of operations. -/
inductive Reachable : Store → Prop where
  | empty : Reachable emptyStore
  | step (op : Op) {s : Store} : Reachable s → Reachable (op.run s)

/-- The store after running `ops` in order from `s`. -/
def runOps (ops : List Op) (s : Store) : Store := ops.foldl (fun s op => op.run s) s

/-- Whether the operation is a `postCarts` call of user `u`, the one
operation that inserts cart-item rows into the cart of `u`. -/
def Op.isPostCartsBy (u : Nat) : Op → Bool
  | .postCarts v _ _ => v == u
  | _ => false

/-- The database constraints and de-duplication facts that every reachable
store satisfies: primary keys are unique in each table, a user has one cart
(the unique index on `user_id`), and a cart holds an item once. -/
structure Inv (s : Store) : Prop where
  cartIDs : (s.carts.map Cart.ID).Nodup
  cartUsers : (s.carts.map Cart.UserID).Nodup
  cartItemIDs : (s.cartItems.map CartItem.ID).Nodup
  cartItemPairs : (s.cartItems.map (fun ci => (ci.CartID, ci.ItemID))).Nodup
  orderIDs : (s.orders.map Order.ID).Nodup

/-- Catalog keys are store-issued, hence non-zero, and a cart only ever
holds catalog items. -/
def ItemKeysPos (s : Store) : Prop :=
  (∀ it ∈ s.items, it.ID ≠ 0) ∧ (∀ ci ∈ s.cartItems, ci.ItemID ≠ 0)

/-! ## Lookup lemmas -/

theorem firstWhere_eq_none_iff {α : Type} (key : α → Nat) (p : α → Bool) (l : List α) :
    firstWhere key p l = none ↔ ∀ x ∈ l, p x = false := by
  induction l with
  | nil => simp [firstWhere]
  | cons x xs ih =>
    by_cases hx : p x = true
    · cases h : firstWhere key p xs with
      | none => simp [firstWhere, hx, h]
      | some y => by_cases hk : key y < key x <;> simp [firstWhere, hx, h, hk]
    · simp only [Bool.not_eq_true] at hx
      simp [firstWhere, hx, ih]

theorem firstWhere_some {α : Type} (key : α → Nat) (p : α → Bool) (l : List α) (y : α)
    (h : firstWhere key p l = some y) : y ∈ l ∧ p y = true := by
  induction l generalizing y with
  | nil => simp [firstWhere] at h
  | cons x xs ih =>
    by_cases hx : p x = true
    · cases h' : firstWhere key p xs with
      | none =>
        simp [firstWhere, hx, h'] at h
        subst h
        simp [hx]
      | some z =>
        have hz := ih z h'
        by_cases hk : key z < key x
        · simp [firstWhere, hx, h', hk] at h
          subst h
          simp [hz.1, hz.2]
        · simp [firstWhere, hx, h', hk] at h
          subst h
          simp [hx]
    · simp only [Bool.not_eq_true] at hx
      simp only [firstWhere, hx] at h
      have := ih y h
      simp [this.1, this.2]

theorem firstWhere_exists_of_mem {α : Type} (key : α → Nat) (p : α → Bool) (l : List α) (x : α)
    (hx : x ∈ l) (hp : p x = true) : ∃ y, firstWhere key p l = some y := by
  cases h : firstWhere key p l with
  | some y => exact ⟨y, rfl⟩
  | none =>
    have := (firstWhere_eq_none_iff key p l).1 h x hx
    simp [hp] at this

theorem firstWhere_eq_of_unique {α : Type} (key : α → Nat) (p : α → Bool) (l : List α) (y : α)
    (hy : y ∈ l) (hp : p y = true) (huniq : ∀ x ∈ l, p x = true → x = y) :
    firstWhere key p l = some y := by
  obtain ⟨z, hz⟩ := firstWhere_exists_of_mem key p l y hy hp
  have := firstWhere_some key p l z hz
  rw [hz, huniq z this.1 this.2]

theorem le_maxID (ids : List Nat) (i : Nat) (h : i ∈ ids) : i ≤ maxID ids := by
  induction ids with
  | nil => simp at h
  | cons a as ih =>
    simp only [List.mem_cons] at h
    simp only [maxID, List.foldr_cons]
    rcases h with h | h
    · subst h; exact Nat.le_max_left _ _
    · exact le_trans (ih h) (Nat.le_max_right _ _)

theorem nextID_not_mem (seq : Nat) (ids : List Nat) : nextID seq ids ∉ ids := by
  intro h
  have := le_maxID ids _ h
  unfold nextID at this
  have h2 : maxID ids ≤ max seq (maxID ids) := Nat.le_max_right _ _
  omega

theorem nextID_pos (seq : Nat) (ids : List Nat) : 0 < nextID seq ids := by
  unfold nextID; omega

/-! ## The invariant is kept by every store write -/

theorem Inv.inv_emptyStore : Inv emptyStore := by
  constructor <;> simp [ShoppingBasket.emptyStore]

theorem Inv.inv_createItem {s : Store} (h : Inv s) (name status : String) (now : Nat) :
    Inv (ShoppingBasket.createItem name status now s).1 :=
  ⟨h.cartIDs, h.cartUsers, h.cartItemIDs, h.cartItemPairs, h.orderIDs⟩

theorem Inv.inv_createCartItem {s : Store} (h : Inv s) (cartID itemID : Nat)
    (hnone : findCartItem cartID itemID s = none) :
    Inv (ShoppingBasket.createCartItem cartID itemID s) := by
  have hno := (firstWhere_eq_none_iff _ _ _).1 hnone
  refine ⟨h.cartIDs, h.cartUsers, ?_, ?_, h.orderIDs⟩
  · simp only [ShoppingBasket.createCartItem, List.map_append, List.map_cons, List.map_nil]
    rw [List.nodup_append]
    refine ⟨h.cartItemIDs, List.nodup_singleton _, ?_⟩
    intro a ha hb
    simp only [List.mem_singleton] at hb
    subst hb
    exact nextID_not_mem _ _ ha
  · simp only [ShoppingBasket.createCartItem, List.map_append, List.map_cons, List.map_nil]
    rw [List.nodup_append]
    refine ⟨h.cartItemPairs, List.nodup_singleton _, ?_⟩
    intro a ha hb
    simp only [List.mem_singleton] at hb
    subst hb
    simp only [List.mem_map, Prod.mk.injEq] at ha
    obtain ⟨ci, hci, h1, h2⟩ := ha
    have := hno ci hci
    simp [h1, h2] at this

theorem Inv.inv_deleteCartItemsOf {s : Store} (h : Inv s) (cartID : Nat) :
    Inv (ShoppingBasket.deleteCartItemsOf cartID s) :=
  ⟨h.cartIDs, h.cartUsers,
    h.cartItemIDs.sublist (List.Sublist.map _ (List.filter_sublist _)),
    h.cartItemPairs.sublist (List.Sublist.map _ (List.filter_sublist _)), h.orderIDs⟩

theorem Inv.inv_deleteCartItemRow {s : Store} (h : Inv s) (ci : CartItem) :
    Inv (ShoppingBasket.deleteCartItemRow ci s) :=
  ⟨h.cartIDs, h.cartUsers,
    h.cartItemIDs.sublist (List.Sublist.map _ (List.filter_sublist _)),
    h.cartItemPairs.sublist (List.Sublist.map _ (List.filter_sublist _)), h.orderIDs⟩

theorem eq_of_ID_eq {s : Store} (h : Inv s) {c d : Cart} (hc : c ∈ s.carts) (hd : d ∈ s.carts)
    (hid : c.ID = d.ID) : c = d :=
  List.inj_on_of_nodup_map h.cartIDs hc hd hid

theorem eq_of_UserID_eq {s : Store} (h : Inv s) {c d : Cart} (hc : c ∈ s.carts)
    (hd : d ∈ s.carts) (hid : c.UserID = d.UserID) : c = d :=
  List.inj_on_of_nodup_map h.cartUsers hc hd hid

theorem Inv.inv_saveCart {s : Store} (h : Inv s) (old cart : Cart) (hold : old ∈ s.carts)
    (hid : cart.ID = old.ID) (hu : cart.UserID = old.UserID) :
    Inv (ShoppingBasket.saveCart cart s) := by
  have h1 : (s.carts.map (fun c => if c.ID = cart.ID then cart else c)).map Cart.ID
      = s.carts.map Cart.ID := by
    rw [List.map_map]
    apply List.map_congr_left
    intro c _
    by_cases hc : c.ID = cart.ID <;> simp [hc]
  have h2 : (s.carts.map (fun c => if c.ID = cart.ID then cart else c)).map Cart.UserID
      = s.carts.map Cart.UserID := by
    rw [List.map_map]
    apply List.map_congr_left
    intro c hcm
    by_cases hc : c.ID = cart.ID
    · have : c = old := eq_of_ID_eq h hcm hold (hc.trans hid)
      subst this
      simp [hc, hu]
    · simp [hc]
  refine ⟨?_, ?_, h.cartItemIDs, h.cartItemPairs, h.orderIDs⟩
  · simp only [ShoppingBasket.saveCart]; rw [h1]; exact h.cartIDs
  · simp only [ShoppingBasket.saveCart]; rw [h2]; exact h.cartUsers

theorem Inv.inv_updateCartStatus {s : Store} (h : Inv s) (cartID : Nat) (status : String) :
    Inv (ShoppingBasket.updateCartStatus cartID status s) := by
  have h1 : (s.carts.map (fun c => if c.ID = cartID then { c with Status := status } else c)).map
      Cart.ID = s.carts.map Cart.ID := by
    rw [List.map_map]
    apply List.map_congr_left
    intro c _
    by_cases hc : c.ID = cartID <;> simp [hc]
  have h2 : (s.carts.map (fun c => if c.ID = cartID then { c with Status := status } else c)).map
      Cart.UserID = s.carts.map Cart.UserID := by
    rw [List.map_map]
    apply List.map_congr_left
    intro c _
    by_cases hc : c.ID = cartID <;> simp [hc]
  refine ⟨?_, ?_, h.cartItemIDs, h.cartItemPairs, h.orderIDs⟩
  · simp only [ShoppingBasket.updateCartStatus]; rw [h1]; exact h.cartIDs
  · simp only [ShoppingBasket.updateCartStatus]; rw [h2]; exact h.cartUsers

theorem Inv.inv_createCart {s : Store} (h : Inv s) (userID now : Nat) :
    Inv (ShoppingBasket.createCart userID now s).1 := by
  unfold ShoppingBasket.createCart
  split
  · exact h
  · rename_i hany
    simp only [List.any_eq_true, beq_iff_eq, not_exists, not_and] at hany
    refine ⟨?_, ?_, h.cartItemIDs, h.cartItemPairs, h.orderIDs⟩
    · simp only [List.map_append, List.map_cons, List.map_nil]
      rw [List.nodup_append]
      refine ⟨h.cartIDs, List.nodup_singleton _, ?_⟩
      intro a ha hb
      simp only [List.mem_singleton] at hb
      subst hb
      exact nextID_not_mem _ _ ha
    · simp only [List.map_append, List.map_cons, List.map_nil]
      rw [List.nodup_append]
      refine ⟨h.cartUsers, List.nodup_singleton _, ?_⟩
      intro a ha hb
      simp only [List.mem_singleton] at hb
      subst hb
      simp only [List.mem_map] at ha
      obtain ⟨c, hc, hcu⟩ := ha
      exact hany c hc hcu

theorem Inv.inv_createOrder {s : Store} (h : Inv s) (cartID userID now : Nat) :
    Inv (ShoppingBasket.createOrder cartID userID now s).1 := by
  refine ⟨h.cartIDs, h.cartUsers, h.cartItemIDs, h.cartItemPairs, ?_⟩
  simp only [ShoppingBasket.createOrder, List.map_append, List.map_cons, List.map_nil]
  rw [List.nodup_append]
  refine ⟨h.orderIDs, List.nodup_singleton _, ?_⟩
  intro a ha hb
  simp only [List.mem_singleton] at hb
  subst hb
  exact nextID_not_mem _ _ ha

/-! ## The invariant is kept by every handler -/

theorem Inv.inv_ensureActiveCart {s : Store} (h : Inv s) (u now : Nat) :
    Inv (ShoppingBasket.ensureActiveCart u now s).1 := by
  unfold ShoppingBasket.ensureActiveCart
  split
  · rename_i cart hfind
    have hmem := (firstWhere_some _ _ _ _ hfind).1
    split
    · exact (h.inv_saveCart cart { cart with Status := "ACTIVE", Name := "" } hmem rfl
        rfl).inv_deleteCartItemsOf _
    · exact h
  · exact h.inv_createCart u now

theorem Inv.inv_postCartsLoop (cart : Cart) (ids : List Nat) {s : Store} (h : Inv s) :
    Inv (ShoppingBasket.postCartsLoop cart ids s).1 := by
  induction ids generalizing s with
  | nil => exact h
  | cons id rest ih =>
    unfold ShoppingBasket.postCartsLoop
    split
    · exact h
    · split
      · exact ih h
      · rename_i hnone
        exact ih (h.inv_createCartItem cart.ID id hnone)

theorem Inv.inv_postCarts {s : Store} (h : Inv s) (u : Nat) (body : PostCartsBody) (now : Nat) :
    Inv (ShoppingBasket.postCarts u body now s).1 := by
  unfold ShoppingBasket.postCarts
  split
  · exact h
  · have he := h.inv_ensureActiveCart u now
    split
    · rename_i heq
      rw [heq] at he
      exact he
    · rename_i s1 cart heq
      rw [heq] at he
      have hl := Inv.inv_postCartsLoop cart body.ids he
      split
      · rename_i hloop
        rw [hloop] at hl
        exact hl
      · rename_i hloop
        rw [hloop] at hl
        exact hl

theorem Inv.inv_getMyCart {s : Store} (h : Inv s) (u now : Nat) :
    Inv (ShoppingBasket.getMyCart u now s).1 := by
  unfold ShoppingBasket.getMyCart
  have he := h.inv_ensureActiveCart u now
  split
  · rename_i heq
    rw [heq] at he
    exact he
  · rename_i heq
    rw [heq] at he
    exact he

theorem Inv.inv_postOrders {s : Store} (h : Inv s) (u cartID now : Nat) :
    Inv (ShoppingBasket.postOrders u cartID now s).1 := by
  unfold ShoppingBasket.postOrders
  split
  · exact h
  · split
    · exact h
    · split
      · exact h
      · split
        · exact h
        · split
          · exact h
          · exact (h.inv_createOrder _ _ _).inv_updateCartStatus _ _

theorem Inv.inv_deleteCartItem {s : Store} (h : Inv s) (u itemID : Nat) :
    Inv (ShoppingBasket.deleteCartItem u itemID s).1 := by
  unfold ShoppingBasket.deleteCartItem
  split
  · exact h
  · split
    · exact h
    · split
      · exact h
      · exact h.inv_deleteCartItemRow _

theorem Inv.inv_postItems {s : Store} (h : Inv s) (name status : String) (now : Nat) :
    Inv (ShoppingBasket.postItems name status now s).1 := by
  unfold ShoppingBasket.postItems
  split
  · exact h
  · exact h.inv_createItem _ _ _

theorem Inv.inv_initDB {s : Store} (h : Inv s) (now : Nat) : Inv (ShoppingBasket.initDB now s) := by
  unfold ShoppingBasket.initDB
  split
  · exact ((((h.inv_createItem _ _ _).inv_createItem _ _ _).inv_createItem _ _ _).inv_createItem _ _ _).inv_createItem
      _ _ _
  · exact h

theorem Inv.inv_run {s : Store} (h : Inv s) (op : Op) : Inv (op.run s) := by
  cases op with
  | ensureActiveCart u now => exact h.inv_ensureActiveCart u now
  | postCarts u body now => exact h.inv_postCarts u body now
  | getMyCart u now => exact h.inv_getMyCart u now
  | postOrders u cartID now => exact h.inv_postOrders u cartID now
  | getMyOrders u => exact h
  | deleteCartItem u itemID => exact h.inv_deleteCartItem u itemID
  | postItems name status now => exact h.inv_postItems name status now
  | initDB now => exact h.inv_initDB now

theorem Inv.inv_of_reachable {s : Store} (h : Reachable s) : Inv s := by
  induction h with
  | empty => exact Inv.inv_emptyStore
  | step op _ ih => exact ih.inv_run op

theorem reachable_runOps (ops : List Op) {s : Store} (h : Reachable s) :
    Reachable (runOps ops s) := by
  induction ops generalizing s with
  | nil => exact h
  | cons op rest ih => exact ih (Reachable.step op h)

/-! ## Counting rows -/

theorem filter_length_le_one {α β : Type} (f : α → β) (a : β) (p : α → Bool)
    (hp : ∀ x, p x = true ↔ f x = a) (l : List α) (h : (l.map f).Nodup) :
    (l.filter p).length ≤ 1 := by
  induction l with
  | nil => simp
  | cons x xs ih =>
    simp only [List.map_cons, List.nodup_cons] at h
    by_cases hx : p x = true
    · have hnil : xs.filter p = [] := by
        rw [List.filter_eq_nil_iff]
        intro y hy hpy
        apply h.1
        rw [(hp x).1 hx, ← (hp y).1 hpy]
        exact List.mem_map_of_mem f hy
      simp [List.filter_cons, hx, hnil]
    · simp only [List.filter_cons, hx]
      exact ih h.2

theorem filter_length_eq_one {α β : Type} (f : α → β) (a : β) (p : α → Bool)
    (hp : ∀ x, p x = true ↔ f x = a) (l : List α) (h : (l.map f).Nodup) (x : α) (hx : x ∈ l)
    (hpx : p x = true) : (l.filter p).length = 1 := by
  have h1 := filter_length_le_one f a p hp l h
  have h2 : 0 < (l.filter p).length :=
    List.length_pos_of_mem (List.mem_filter.2 ⟨hx, hpx⟩)
  omega

/-! ## What `ensureActiveCart` and the add loop do -/

theorem createCart_of_no_cart (u now : Nat) (s : Store) (h : findUserCart u s = none) :
    createCart u now s =
      ({ s with
          carts := s.carts ++ [{ ID := nextID s.cartSeq (s.carts.map Cart.ID), UserID := u,
                                 Name := "", Status := "ACTIVE", CreatedAt := now }],
          cartSeq := nextID s.cartSeq (s.carts.map Cart.ID) },
        .ok { ID := nextID s.cartSeq (s.carts.map Cart.ID), UserID := u, Name := "",
              Status := "ACTIVE", CreatedAt := now }) := by
  have hno := (firstWhere_eq_none_iff _ _ _).1 h
  have hany : s.carts.any (fun c => c.UserID == u) = false := by
    rw [List.any_eq_false]
    intro c hc
    simpa using hno c hc
  simp [createCart, hany]

theorem ensureActiveCart_ok (u now : Nat) (s : Store) :
    ∃ cart, (ensureActiveCart u now s).2 = .ok cart := by
  unfold ensureActiveCart
  split
  · split
    · exact ⟨_, rfl⟩
    · exact ⟨_, rfl⟩
  · rename_i hnone
    rw [createCart_of_no_cart u now s hnone]
    exact ⟨_, rfl⟩

theorem ensureActiveCart_frame (u now : Nat) (s : Store) :
    (ensureActiveCart u now s).1.items = s.items ∧
      (ensureActiveCart u now s).1.orders = s.orders := by
  unfold ensureActiveCart
  split
  · split
    · exact ⟨rfl, rfl⟩
    · exact ⟨rfl, rfl⟩
  · unfold createCart
    split
    · exact ⟨rfl, rfl⟩
    · exact ⟨rfl, rfl⟩

theorem findItem_congr {s t : Store} (h : t.items = s.items) (id : Nat) :
    findItem id t = findItem id s := by
  simp [findItem, h]

theorem postCartsLoop_frame (cart : Cart) (ids : List Nat) (s : Store) :
    (postCartsLoop cart ids s).1.items = s.items ∧
      (postCartsLoop cart ids s).1.carts = s.carts ∧
      (postCartsLoop cart ids s).1.orders = s.orders := by
  induction ids generalizing s with
  | nil => exact ⟨rfl, rfl, rfl⟩
  | cons id rest ih =>
    unfold postCartsLoop
    split
    · exact ⟨rfl, rfl, rfl⟩
    · split
      · exact ih s
      · exact ih (createCartItem cart.ID id s)

theorem postCartsLoop_added (cart : Cart) (ids : List Nat) (s : Store) :
    ∃ added, (postCartsLoop cart ids s).1.cartItems = s.cartItems ++ added ∧
      ∀ ci ∈ added, ci.CartID = cart.ID ∧ ci.ItemID ∈ ids := by
  induction ids generalizing s with
  | nil => exact ⟨[], by simp [postCartsLoop]⟩
  | cons id rest ih =>
    unfold postCartsLoop
    split
    · exact ⟨[], by simp⟩
    · split
      · obtain ⟨added, h1, h2⟩ := ih s
        exact ⟨added, h1, fun ci hci => ⟨(h2 ci hci).1, List.mem_cons_of_mem _ (h2 ci hci).2⟩⟩
      · obtain ⟨added, h1, h2⟩ := ih (createCartItem cart.ID id s)
        refine ⟨⟨nextID s.cartItemSeq (s.cartItems.map CartItem.ID), cart.ID, id⟩ :: added,
          ?_, ?_⟩
        · rw [h1]
          simp only [createCartItem, List.append_assoc, List.singleton_append]
        · intro ci hci
          simp only [List.mem_cons] at hci
          rcases hci with hci | hci
          · subst hci
            simp
          · exact ⟨(h2 ci hci).1, List.mem_cons_of_mem _ (h2 ci hci).2⟩

theorem findCartItem_mem_pair (cartID itemID : Nat) (s : Store) (ci : CartItem)
    (h : findCartItem cartID itemID s = some ci) :
    ci ∈ s.cartItems ∧ ci.CartID = cartID ∧ ci.ItemID = itemID := by
  have := firstWhere_some _ _ _ _ h
  simp only [Bool.and_eq_true, beq_iff_eq] at this
  exact ⟨this.1, this.2.1, this.2.2⟩

theorem postCartsLoop_cons_invalid (cart : Cart) (id : Nat) (rest : List Nat) (s : Store)
    (h : findItem id s = none) : postCartsLoop cart (id :: rest) s = (s, false) := by
  simp [postCartsLoop, h]

theorem postCartsLoop_cons_present (cart : Cart) (id : Nat) (rest : List Nat) (s : Store)
    (it : Item) (ci : CartItem) (h : findItem id s = some it)
    (h2 : findCartItem cart.ID id s = some ci) :
    postCartsLoop cart (id :: rest) s = postCartsLoop cart rest s := by
  simp [postCartsLoop, h, h2]

theorem postCartsLoop_cons_absent (cart : Cart) (id : Nat) (rest : List Nat) (s : Store)
    (it : Item) (h : findItem id s = some it) (h2 : findCartItem cart.ID id s = none) :
    postCartsLoop cart (id :: rest) s
      = postCartsLoop cart rest (createCartItem cart.ID id s) := by
  simp [postCartsLoop, h, h2]

theorem postCartsLoop_holds (cart : Cart) (ids : List Nat) (s : Store)
    (h : (postCartsLoop cart ids s).2 = true) :
    ∀ id ∈ ids, ∃ ci ∈ (postCartsLoop cart ids s).1.cartItems,
      ci.CartID = cart.ID ∧ ci.ItemID = id := by
  induction ids generalizing s with
  | nil => simp
  | cons id rest ih =>
    cases hitem : findItem id s with
    | none => simp [postCartsLoop_cons_invalid cart id rest s hitem] at h
    | some it =>
      cases hci : findCartItem cart.ID id s with
      | some ci =>
        rw [postCartsLoop_cons_present cart id rest s it ci hitem hci] at h ⊢
        intro i hi
        simp only [List.mem_cons] at hi
        rcases hi with hi | hi
        · subst hi
          obtain ⟨added, hadd, _⟩ := postCartsLoop_added cart rest s
          have hm := findCartItem_mem_pair _ _ _ _ hci
          exact ⟨ci, by rw [hadd]; exact List.mem_append_left _ hm.1, hm.2.1, hm.2.2⟩
        · exact ih s h i hi
      | none =>
        rw [postCartsLoop_cons_absent cart id rest s it hitem hci] at h ⊢
        intro i hi
        simp only [List.mem_cons] at hi
        rcases hi with hi | hi
        · subst hi
          obtain ⟨added, hadd, _⟩ := postCartsLoop_added cart rest (createCartItem cart.ID i s)
          refine ⟨⟨nextID s.cartItemSeq (s.cartItems.map CartItem.ID), cart.ID, i⟩, ?_, rfl, rfl⟩
          rw [hadd]
          apply List.mem_append_left
          simp [createCartItem]
        · exact ih _ h i hi

theorem postCarts_eq (u : Nat) (body : PostCartsBody) (now : Nat) (s : Store) (cart : Cart)
    (hbody : ¬(body.ItemID = 0 ∧ body.ItemIDs.length = 0))
    (hcart : (ensureActiveCart u now s).2 = .ok cart) :
    postCarts u body now s =
      if (postCartsLoop cart body.ids (ensureActiveCart u now s).1).2 = true then
        ((postCartsLoop cart body.ids (ensureActiveCart u now s).1).1,
          .ok 200 { Cart := cart,
                    CartItems := cartItemsOf cart.ID
                      (postCartsLoop cart body.ids (ensureActiveCart u now s).1).1 })
      else
        ((postCartsLoop cart body.ids (ensureActiveCart u now s).1).1,
          .error 400 "invalid item id") := by
  rcases he : ensureActiveCart u now s with ⟨s1, r1⟩
  rw [he] at hcart
  simp only at hcart
  subst hcart
  rcases hl : postCartsLoop cart body.ids s1 with ⟨s2, b⟩
  unfold postCarts
  rw [if_neg hbody]
  cases b <;> simp [he, hl]

theorem postCarts_ok (u : Nat) (body : PostCartsBody) (now : Nat) (s : Store)
    (r : CartWithItems) (h : (postCarts u body now s).2 = .ok 200 r) :
    (ensureActiveCart u now s).2 = .ok r.Cart ∧
      (postCartsLoop r.Cart body.ids (ensureActiveCart u now s).1).2 = true ∧
      (postCarts u body now s).1 = (postCartsLoop r.Cart body.ids (ensureActiveCart u now s).1).1 ∧
      r.CartItems = cartItemsOf r.Cart.ID (postCarts u body now s).1 := by
  by_cases hbody : body.ItemID = 0 ∧ body.ItemIDs.length = 0
  · simp [postCarts, hbody] at h
  · obtain ⟨cart, hcart⟩ := ensureActiveCart_ok u now s
    rw [postCarts_eq u body now s cart hbody hcart] at h ⊢
    by_cases hl : (postCartsLoop cart body.ids (ensureActiveCart u now s).1).2 = true
    · simp only [hl, if_true, Resp.ok.injEq, true_and] at h ⊢
      subst h
      simp [hcart, hl]
    · simp [hl] at h

theorem postCartsLoop_stops (cart : Cart) (ids : List Nat) (s : Store)
    (h : ∃ id ∈ ids, findItem id s = none) :
    postCartsLoop cart ids s
        = ((postCartsLoop cart (ids.takeWhile (fun id => (findItem id s).isSome)) s).1, false) ∧
      (postCartsLoop cart (ids.takeWhile (fun id => (findItem id s).isSome)) s).2 = true := by
  induction ids generalizing s with
  | nil => simp at h
  | cons id rest ih =>
    cases hitem : findItem id s with
    | none =>
      rw [postCartsLoop_cons_invalid cart id rest s hitem]
      simp [List.takeWhile_cons, hitem, postCartsLoop]
    | some it =>
      have hrest : ∃ i ∈ rest, findItem i s = none := by
        obtain ⟨i, hi, hnone⟩ := h
        simp only [List.mem_cons] at hi
        rcases hi with hi | hi
        · subst hi; rw [hitem] at hnone; cases hnone
        · exact ⟨i, hi, hnone⟩
      have htw : (id :: rest).takeWhile (fun id => (findItem id s).isSome)
          = id :: rest.takeWhile (fun id => (findItem id s).isSome) := by
        simp [List.takeWhile_cons, hitem]
      rw [htw]
      cases hci : findCartItem cart.ID id s with
      | some ci =>
        rw [postCartsLoop_cons_present cart id rest s it ci hitem hci,
          postCartsLoop_cons_present cart id _ s it ci hitem hci]
        exact ih s hrest
      | none =>
        rw [postCartsLoop_cons_absent cart id rest s it hitem hci,
          postCartsLoop_cons_absent cart id _ s it hitem hci]
        exact ih (createCartItem cart.ID id s) hrest

/-! ## C1: an invalid item id -/

/-- C1 (as the code has it). When some id of the call is no catalog row,
`postCarts` answers 400 "invalid item id"; by then the cart touch of
`ensureActiveCart` has been applied and a row has been inserted for the ids
that precede the first invalid one, where the cart lacked it. Nothing else
is written: catalog and orders are as before, carts are as the cart touch
left them, and every added row belongs to the user's cart and to an id
before the first invalid one. -/
theorem postCarts_invalid_item (s : Store) (u : Nat) (body : PostCartsBody) (now : Nat)
    (h : ∃ id ∈ body.ids, findItem id s = none) :
    ∃ cart added,
      (ensureActiveCart u now s).2 = .ok cart ∧
      (postCarts u body now s).2 = .error 400 "invalid item id" ∧
      (postCarts u body now s).1.items = s.items ∧
      (postCarts u body now s).1.orders = s.orders ∧
      (postCarts u body now s).1.carts = (ensureActiveCart u now s).1.carts ∧
      (postCarts u body now s).1.cartItems = (ensureActiveCart u now s).1.cartItems ++ added ∧
      (∀ ci ∈ added, ci.CartID = cart.ID ∧
        ci.ItemID ∈ body.ids.takeWhile (fun id => (findItem id s).isSome)) ∧
      (∀ id ∈ body.ids.takeWhile (fun id => (findItem id s).isSome),
        ∃ ci ∈ (postCarts u body now s).1.cartItems, ci.CartID = cart.ID ∧ ci.ItemID = id) := by
  have hbody : ¬(body.ItemID = 0 ∧ body.ItemIDs.length = 0) := by
    rintro ⟨h1, h2⟩
    obtain ⟨id, hid, _⟩ := h
    have h3 : body.ItemIDs = [] := List.length_eq_zero.1 h2
    simp [PostCartsBody.ids, h1, h3] at hid
  obtain ⟨cart, hcart⟩ := ensureActiveCart_ok u now s
  have hfr := ensureActiveCart_frame u now s
  have hpred : (fun id => (findItem id (ensureActiveCart u now s).1).isSome)
      = (fun id => (findItem id s).isSome) := by
    funext id
    rw [findItem_congr hfr.1]
  have h' : ∃ id ∈ body.ids, findItem id (ensureActiveCart u now s).1 = none := by
    obtain ⟨id, hid, hnone⟩ := h
    exact ⟨id, hid, by rw [findItem_congr hfr.1]; exact hnone⟩
  obtain ⟨hstop, hpre⟩ := postCartsLoop_stops cart body.ids _ h'
  rw [hpred] at hstop hpre
  have heq := postCarts_eq u body now s cart hbody hcart
  rw [hstop] at heq
  simp only [Bool.false_eq_true, if_false] at heq
  obtain ⟨added, hadd, haddp⟩ := postCartsLoop_added cart
    (body.ids.takeWhile (fun id => (findItem id s).isSome)) (ensureActiveCart u now s).1
  have hframe := postCartsLoop_frame cart
    (body.ids.takeWhile (fun id => (findItem id s).isSome)) (ensureActiveCart u now s).1
  have hholds := postCartsLoop_holds cart
    (body.ids.takeWhile (fun id => (findItem id s).isSome)) (ensureActiveCart u now s).1 hpre
  refine ⟨cart, added, hcart, ?_, ?_, ?_, ?_, ?_, haddp, ?_⟩
  · rw [heq]
  · rw [heq]; exact hframe.1.trans hfr.1
  · rw [heq]; exact hframe.2.2.trans hfr.2
  · rw [heq]; exact hframe.2.1
  · rw [heq]; exact hadd
  · rw [heq]; exact hholds

/-- The claim as written fails: user 7 has an empty active cart, item 1
exists and item 99 does not; the call is refused and yet a row for item 1 is
in the store afterwards. -/
theorem postCarts_partial_application :
    (runOps [.initDB 0, .getMyCart 7 1] emptyStore).cartItems = [] ∧
      (∃ id ∈ (⟨0, [1, 99]⟩ : PostCartsBody).ids,
        findItem id (runOps [.initDB 0, .getMyCart 7 1] emptyStore) = none) ∧
      (postCarts 7 ⟨0, [1, 99]⟩ 5 (runOps [.initDB 0, .getMyCart 7 1] emptyStore)).2
        = .error 400 "invalid item id" ∧
      (postCarts 7 ⟨0, [1, 99]⟩ 5 (runOps [.initDB 0, .getMyCart 7 1] emptyStore)).1.cartItems
        = [⟨1, 1, 1⟩] ∧
      (postCarts 7 ⟨0, [1, 99]⟩ 5 (runOps [.initDB 0, .getMyCart 7 1] emptyStore)).1.cartItems
        ≠ (runOps [.initDB 0, .getMyCart 7 1] emptyStore).cartItems := by
  decide

/-- The amended statement at the same input: the one added row is for item
1, the id before the invalid 99. -/
theorem postCarts_invalid_item_witness :
    ∃ cart added,
      (ensureActiveCart 7 5 (runOps [.initDB 0, .getMyCart 7 1] emptyStore)).2 = .ok cart ∧
      (postCarts 7 ⟨0, [1, 99]⟩ 5 (runOps [.initDB 0, .getMyCart 7 1] emptyStore)).2
        = .error 400 "invalid item id" ∧
      (postCarts 7 ⟨0, [1, 99]⟩ 5 (runOps [.initDB 0, .getMyCart 7 1] emptyStore)).1.items
        = (runOps [.initDB 0, .getMyCart 7 1] emptyStore).items ∧
      (postCarts 7 ⟨0, [1, 99]⟩ 5 (runOps [.initDB 0, .getMyCart 7 1] emptyStore)).1.orders
        = (runOps [.initDB 0, .getMyCart 7 1] emptyStore).orders ∧
      (postCarts 7 ⟨0, [1, 99]⟩ 5 (runOps [.initDB 0, .getMyCart 7 1] emptyStore)).1.carts
        = (ensureActiveCart 7 5 (runOps [.initDB 0, .getMyCart 7 1] emptyStore)).1.carts ∧
      (postCarts 7 ⟨0, [1, 99]⟩ 5 (runOps [.initDB 0, .getMyCart 7 1] emptyStore)).1.cartItems
        = (ensureActiveCart 7 5 (runOps [.initDB 0, .getMyCart 7 1] emptyStore)).1.cartItems
          ++ added ∧
      (∀ ci ∈ added, ci.CartID = cart.ID ∧
        ci.ItemID ∈ (⟨0, [1, 99]⟩ : PostCartsBody).ids.takeWhile
          (fun id => (findItem id (runOps [.initDB 0, .getMyCart 7 1] emptyStore)).isSome)) ∧
      (∀ id ∈ (⟨0, [1, 99]⟩ : PostCartsBody).ids.takeWhile
          (fun id => (findItem id (runOps [.initDB 0, .getMyCart 7 1] emptyStore)).isSome),
        ∃ ci ∈ (postCarts 7 ⟨0, [1, 99]⟩ 5
            (runOps [.initDB 0, .getMyCart 7 1] emptyStore)).1.cartItems,
          ci.CartID = cart.ID ∧ ci.ItemID = id) :=
  postCarts_invalid_item (runOps [.initDB 0, .getMyCart 7 1] emptyStore) 7 ⟨0, [1, 99]⟩ 5
    ⟨99, by decide, by decide⟩

/-! ## C2, C3: uniqueness invariants -/

/-- C2. In every store reached from the empty store by a sequence of
operations, each user has at most one cart row, and cart rows of two
different users never carry the same cart id. -/
theorem cart_unique_per_user (ops : List Op) :
    (∀ u, ((runOps ops emptyStore).carts.filter (fun c => c.UserID == u)).length ≤ 1) ∧
      (∀ c ∈ (runOps ops emptyStore).carts, ∀ d ∈ (runOps ops emptyStore).carts,
        c.UserID ≠ d.UserID → c.ID ≠ d.ID) := by
  have hinv := Inv.inv_of_reachable (reachable_runOps ops Reachable.empty)
  constructor
  · intro u
    exact filter_length_le_one Cart.UserID u _ (fun x => by simp) _ hinv.cartUsers
  · intro c hc d hd hne hid
    exact hne (congrArg Cart.UserID (eq_of_ID_eq hinv hc hd hid))

/-- C3. In every store reached from the empty store by a sequence of
operations, no two cart-item rows share (cart id, item id); and after a
further successful `postCarts` the returned cart holds exactly one row for
each requested item id, however often the id was requested. -/
theorem cartItem_dedup (ops : List Op) :
    ((runOps ops emptyStore).cartItems.map (fun ci => (ci.CartID, ci.ItemID))).Nodup ∧
      (∀ (u : Nat) (body : PostCartsBody) (now : Nat) (r : CartWithItems),
        (postCarts u body now (runOps ops emptyStore)).2 = .ok 200 r →
        ∀ id ∈ body.ids,
          ((postCarts u body now (runOps ops emptyStore)).1.cartItems.filter
            (fun ci => ci.CartID == r.Cart.ID && ci.ItemID == id)).length = 1) := by
  have hreach := reachable_runOps ops Reachable.empty
  have hinv := Inv.inv_of_reachable hreach
  refine ⟨hinv.cartItemPairs, ?_⟩
  intro u body now r hr id hid
  have hinv2 := hinv.inv_postCarts u body now
  obtain ⟨_, hloop, hst, _⟩ := postCarts_ok u body now _ r hr
  obtain ⟨ci, hci, h1, h2⟩ := postCartsLoop_holds r.Cart body.ids _ hloop id hid
  rw [← hst] at hci
  exact filter_length_eq_one (fun ci => (ci.CartID, ci.ItemID)) (r.Cart.ID, id) _
    (fun x => by simp) _ hinv2.cartItemPairs ci hci (by simp [h1, h2])

/-- Two users touch their carts: each gets one cart, with different ids. -/
theorem cart_unique_per_user_witness :
    (runOps [.initDB 0, .getMyCart 7 1, .getMyCart 8 2, .getMyCart 7 3] emptyStore).carts
        = [⟨1, 7, "", "ACTIVE", 1⟩, ⟨2, 8, "", "ACTIVE", 2⟩] ∧
      ((runOps [.initDB 0, .getMyCart 7 1, .getMyCart 8 2, .getMyCart 7 3] emptyStore).carts.filter
        (fun c => c.UserID == 7)).length ≤ 1 :=
  ⟨by decide,
    (cart_unique_per_user [.initDB 0, .getMyCart 7 1, .getMyCart 8 2, .getMyCart 7 3]).1 7⟩

/-- The scenario of the specification: ids `[1, 1, 2]` in one call leave two
rows, and a second call with id `1` leaves them as they are. -/
theorem cartItem_dedup_witness :
    (postCarts 7 ⟨0, [1, 1, 2]⟩ 5 (runOps [.initDB 0] emptyStore)).2
        = .ok 200 ⟨⟨1, 7, "", "ACTIVE", 5⟩, [⟨1, 1, 1⟩, ⟨2, 1, 2⟩]⟩ ∧
      (postCarts 7 ⟨1, []⟩ 6 (runOps [.initDB 0, .postCarts 7 ⟨0, [1, 1, 2]⟩ 5] emptyStore)).2
        = .ok 200 ⟨⟨1, 7, "", "ACTIVE", 5⟩, [⟨1, 1, 1⟩, ⟨2, 1, 2⟩]⟩ ∧
      ((postCarts 7 ⟨0, [1, 1, 2]⟩ 5 (runOps [.initDB 0] emptyStore)).1.cartItems.filter
        (fun ci => ci.CartID == 1 && ci.ItemID == 1)).length = 1 :=
  ⟨by decide, by decide,
    (cartItem_dedup [.initDB 0]).2 7 ⟨0, [1, 1, 2]⟩ 5 ⟨⟨1, 7, "", "ACTIVE", 5⟩, [⟨1, 1, 1⟩, ⟨2, 1, 2⟩]⟩
      (by decide) 1 (by decide)⟩

/-! ## C4, C5: placing an order -/

theorem findCart_some (cartID : Nat) (s : Store) (cart : Cart)
    (h : findCart cartID s = some cart) : cart ∈ s.carts ∧ cart.ID = cartID := by
  have := firstWhere_some _ _ _ _ h
  simp only [beq_iff_eq] at this
  exact this

theorem cartItemsOf_length_eq_zero (cartID : Nat) (s : Store) :
    (cartItemsOf cartID s).length = 0 ↔ ∀ ci ∈ s.cartItems, ci.CartID ≠ cartID := by
  simp [cartItemsOf, List.filter_eq_nil_iff]

theorem postOrders_placed (s : Store) (u cartID now : Nat) (cart : Cart) (h0 : cartID ≠ 0)
    (hfind : findCart cartID s = some cart) (hu : cart.UserID = u)
    (hst : cart.Status ≠ "ORDERED") (hne : (cartItemsOf cart.ID s).length ≠ 0) :
    postOrders u cartID now s
      = (updateCartStatus cart.ID "ORDERED" (createOrder cart.ID u now s).1,
          .ok 201 (createOrder cart.ID u now s).2.ID) := by
  simp [postOrders, h0, hfind, hu, hst, hne]

theorem postOrders_ok (s : Store) (u cartID now code oid : Nat)
    (h : (postOrders u cartID now s).2 = .ok code oid) :
    ∃ cart, cartID ≠ 0 ∧ findCart cartID s = some cart ∧ cart.UserID = u ∧
      cart.Status ≠ "ORDERED" ∧ (cartItemsOf cart.ID s).length ≠ 0 := by
  unfold postOrders at h
  split at h
  · cases h
  · rename_i h0
    split at h
    · cases h
    · rename_i cart hfind
      split at h
      · cases h
      · rename_i hu
        split at h
        · cases h
        · rename_i hst
          split at h
          · cases h
          · rename_i hne
            exact ⟨cart, h0, hfind, not_not.1 hu, hst, hne⟩

/-- C4. `postOrders` on a non-zero cart id checks in this order, the first
failure deciding: no cart with that id gives 400 "cart not found"; a cart of
another user gives 403 "not your cart"; an ORDERED cart gives 400 "cart
already ordered"; a cart without cart-item rows gives 400 "cart is empty".
In each case the store, and so the order table, is left as it was. -/
theorem postOrders_preconditions (s : Store) (u cartID now : Nat) (h0 : cartID ≠ 0) :
    ((∀ c ∈ s.carts, c.ID ≠ cartID) →
        postOrders u cartID now s = (s, .error 400 "cart not found")) ∧
      ((∃ c ∈ s.carts, c.ID = cartID) → ∃ cart, findCart cartID s = some cart) ∧
      (∀ cart, findCart cartID s = some cart →
        (cart ∈ s.carts ∧ cart.ID = cartID) ∧
        (cart.UserID ≠ u → postOrders u cartID now s = (s, .error 403 "not your cart")) ∧
        (cart.UserID = u → cart.Status = "ORDERED" →
          postOrders u cartID now s = (s, .error 400 "cart already ordered")) ∧
        (cart.UserID = u → cart.Status ≠ "ORDERED" →
          (∀ ci ∈ s.cartItems, ci.CartID ≠ cartID) →
          postOrders u cartID now s = (s, .error 400 "cart is empty"))) := by
  refine ⟨?_, ?_, ?_⟩
  · intro hno
    have hnone : findCart cartID s = none := by
      rw [findCart, firstWhere_eq_none_iff]
      intro c hc
      simpa using hno c hc
    simp [postOrders, h0, hnone]
  · rintro ⟨c, hc, hid⟩
    exact firstWhere_exists_of_mem _ _ _ c hc (by simp [hid])
  · intro cart hfind
    have hm := findCart_some cartID s cart hfind
    refine ⟨hm, ?_, ?_, ?_⟩
    · intro hu
      simp [postOrders, h0, hfind, hu]
    · intro hu hst
      simp [postOrders, h0, hfind, hu, hst]
    · intro hu hst hempty
      have hz : (cartItemsOf cart.ID s).length = 0 := by
        rw [cartItemsOf_length_eq_zero, hm.2]
        exact hempty
      simp [postOrders, h0, hfind, hu, hst, hz]

/-- C5. When the cart with the given id (non-zero, as every store-issued key)
exists, belongs to the caller, is not ORDERED and holds at least one cart-item row, `postOrders` answers 201 with
the id of one new order row, appended to the order table with a fresh id,
that cart as `CartID` and the caller as `UserID`; the cart's status becomes
ORDERED and nothing else changes: cart-item rows, catalog, earlier order rows
and all other columns and rows of the cart table are as before. -/
theorem postOrders_success (s : Store) (u cartID now : Nat) (cart : Cart) (h0 : cartID ≠ 0)
    (hfind : findCart cartID s = some cart) (hu : cart.UserID = u)
    (hst : cart.Status ≠ "ORDERED") (hne : ∃ ci ∈ s.cartItems, ci.CartID = cartID) :
    ∃ o : Order,
      (postOrders u cartID now s).2 = .ok 201 o.ID ∧
      (postOrders u cartID now s).1.orders = s.orders ++ [o] ∧
      o.CartID = cartID ∧ o.UserID = u ∧ o.CreatedAt = now ∧
      o.ID ∉ s.orders.map Order.ID ∧
      (postOrders u cartID now s).1.cartItems = s.cartItems ∧
      (postOrders u cartID now s).1.items = s.items ∧
      (postOrders u cartID now s).1.carts
        = s.carts.map (fun c => if c.ID = cartID then { c with Status := "ORDERED" } else c) ∧
      { cart with Status := "ORDERED" } ∈ (postOrders u cartID now s).1.carts := by
  have hm := findCart_some cartID s cart hfind
  have hlen : (cartItemsOf cart.ID s).length ≠ 0 := by
    rw [Ne, cartItemsOf_length_eq_zero, hm.2]
    obtain ⟨ci, hci, hid⟩ := hne
    exact fun hall => hall ci hci hid
  rw [postOrders_placed s u cartID now cart h0 hfind hu hst hlen]
  refine ⟨(createOrder cart.ID u now s).2, rfl, rfl, hm.2, rfl, rfl, ?_, rfl, rfl, ?_, ?_⟩
  · exact nextID_not_mem _ _
  · simp [updateCartStatus, createOrder, hm.2]
  · simp only [updateCartStatus, createOrder, List.mem_map]
    exact ⟨cart, hm.1, by simp [hm.2]⟩

/-- The four refusals, each at a concrete store: cart 9 does not exist, cart
2 is user 8's, cart 1 has been ordered, cart 2 is empty. -/
theorem postOrders_preconditions_witness :
    postOrders 7 9 9 (runOps [.initDB 0, .postCarts 7 ⟨1, []⟩ 1, .getMyCart 8 2] emptyStore)
        = (runOps [.initDB 0, .postCarts 7 ⟨1, []⟩ 1, .getMyCart 8 2] emptyStore,
            .error 400 "cart not found") ∧
      postOrders 7 2 9 (runOps [.initDB 0, .postCarts 7 ⟨1, []⟩ 1, .getMyCart 8 2] emptyStore)
        = (runOps [.initDB 0, .postCarts 7 ⟨1, []⟩ 1, .getMyCart 8 2] emptyStore,
            .error 403 "not your cart") ∧
      postOrders 8 2 9 (runOps [.initDB 0, .postCarts 7 ⟨1, []⟩ 1, .getMyCart 8 2] emptyStore)
        = (runOps [.initDB 0, .postCarts 7 ⟨1, []⟩ 1, .getMyCart 8 2] emptyStore,
            .error 400 "cart is empty") ∧
      postOrders 7 1 9
          (runOps [.initDB 0, .postCarts 7 ⟨1, []⟩ 1, .postOrders 7 1 2] emptyStore)
        = (runOps [.initDB 0, .postCarts 7 ⟨1, []⟩ 1, .postOrders 7 1 2] emptyStore,
            .error 400 "cart already ordered") :=
  ⟨(postOrders_preconditions _ 7 9 9 (by decide)).1 (by decide),
    ((postOrders_preconditions _ 7 2 9 (by decide)).2.2 ⟨2, 8, "", "ACTIVE", 2⟩
      (by decide)).2.1 (by decide),
    ((postOrders_preconditions _ 8 2 9 (by decide)).2.2 ⟨2, 8, "", "ACTIVE", 2⟩
      (by decide)).2.2.2 (by decide) (by decide) (by decide),
    ((postOrders_preconditions _ 7 1 9 (by decide)).2.2 ⟨1, 7, "", "ORDERED", 1⟩
      (by decide)).2.2.1 (by decide) (by decide)⟩

/-- User 7 orders cart 1, which holds item 1: order 1 is created and the cart
is ORDERED. -/
theorem postOrders_success_witness :
    ∃ o : Order,
      (postOrders 7 1 2 (runOps [.initDB 0, .postCarts 7 ⟨1, []⟩ 1] emptyStore)).2
        = .ok 201 o.ID ∧
      (postOrders 7 1 2 (runOps [.initDB 0, .postCarts 7 ⟨1, []⟩ 1] emptyStore)).1.orders
        = (runOps [.initDB 0, .postCarts 7 ⟨1, []⟩ 1] emptyStore).orders ++ [o] ∧
      o.CartID = 1 ∧ o.UserID = 7 ∧ o.CreatedAt = 2 ∧
      o.ID ∉ (runOps [.initDB 0, .postCarts 7 ⟨1, []⟩ 1] emptyStore).orders.map Order.ID ∧
      (postOrders 7 1 2 (runOps [.initDB 0, .postCarts 7 ⟨1, []⟩ 1] emptyStore)).1.cartItems
        = (runOps [.initDB 0, .postCarts 7 ⟨1, []⟩ 1] emptyStore).cartItems ∧
      (postOrders 7 1 2 (runOps [.initDB 0, .postCarts 7 ⟨1, []⟩ 1] emptyStore)).1.items
        = (runOps [.initDB 0, .postCarts 7 ⟨1, []⟩ 1] emptyStore).items ∧
      (postOrders 7 1 2 (runOps [.initDB 0, .postCarts 7 ⟨1, []⟩ 1] emptyStore)).1.carts
        = (runOps [.initDB 0, .postCarts 7 ⟨1, []⟩ 1] emptyStore).carts.map
            (fun c => if c.ID = 1 then { c with Status := "ORDERED" } else c) ∧
      ({ (⟨1, 7, "", "ACTIVE", 1⟩ : Cart) with Status := "ORDERED" })
        ∈ (postOrders 7 1 2 (runOps [.initDB 0, .postCarts 7 ⟨1, []⟩ 1] emptyStore)).1.carts :=
  postOrders_success (runOps [.initDB 0, .postCarts 7 ⟨1, []⟩ 1] emptyStore) 7 1 2
    ⟨1, 7, "", "ACTIVE", 1⟩ (by decide) (by decide) (by decide) (by decide)
    ⟨⟨1, 1, 1⟩, by decide, by decide⟩

/-! ## C6: an ordered cart is reclaimed by the next cart touch -/

theorem findUserCart_some (u : Nat) (s : Store) (cart : Cart)
    (h : findUserCart u s = some cart) : cart ∈ s.carts ∧ cart.UserID = u := by
  have := firstWhere_some _ _ _ _ h
  simp only [beq_iff_eq] at this
  exact this

theorem ensureActiveCart_ordered (s : Store) (u now : Nat) (cart : Cart)
    (hfind : findUserCart u s = some cart) (hst : cart.Status = "ORDERED") :
    ensureActiveCart u now s
      = (deleteCartItemsOf cart.ID (saveCart { cart with Status := "ACTIVE", Name := "" } s),
          .ok { cart with Status := "ACTIVE", Name := "" }) := by
  simp [ensureActiveCart, hfind, hst]

theorem cartItemsOf_deleteCartItemsOf (cartID : Nat) (s : Store) :
    cartItemsOf cartID (deleteCartItemsOf cartID s) = [] := by
  simp only [cartItemsOf, deleteCartItemsOf, List.filter_filter, List.filter_eq_nil_iff]
  intro ci _
  simp

theorem getMyCart_ordered (s : Store) (u now : Nat) (cart : Cart)
    (hfind : findUserCart u s = some cart) (hst : cart.Status = "ORDERED") :
    getMyCart u now s
      = ((ensureActiveCart u now s).1,
          .ok 200 { Cart := { cart with Status := "ACTIVE", Name := "" }, CartItems := [] }) := by
  have he := ensureActiveCart_ordered s u now cart hfind hst
  have hnil := cartItemsOf_deleteCartItemsOf cart.ID
    (saveCart { cart with Status := "ACTIVE", Name := "" } s)
  simp only [getMyCart, he, hnil]

theorem findUserCart_after_order (s : Store) (hinv : Inv s) (u cartID now code oid : Nat)
    (h : (postOrders u cartID now s).2 = .ok code oid) :
    ∃ cart, findCart cartID s = some cart ∧
      findUserCart u (postOrders u cartID now s).1 = some { cart with Status := "ORDERED" } := by
  obtain ⟨cart, h0, hfind, hu, hst, hne⟩ := postOrders_ok s u cartID now code oid h
  refine ⟨cart, hfind, ?_⟩
  have hinv1 := hinv.inv_postOrders u cartID now
  have hm := findCart_some cartID s cart hfind
  have hmem : ({ cart with Status := "ORDERED" } : Cart) ∈ (postOrders u cartID now s).1.carts := by
    rw [postOrders_placed s u cartID now cart h0 hfind hu hst hne]
    simp only [updateCartStatus, createOrder, List.mem_map]
    exact ⟨cart, hm.1, by simp⟩
  apply firstWhere_eq_of_unique _ _ _ _ hmem (by simp [hu])
  intro x hx hpx
  simp only [beq_iff_eq] at hpx
  exact eq_of_UserID_eq hinv1 hx hmem (by simp [hpx, hu])

/-- C6. When the cart that `ensureActiveCart` finds for user `u` is ORDERED,
the call returns that row with status ACTIVE and empty name (id, user and
creation time kept), the cart table holds the row so, and no cart-item row
points at the cart any more; `getMyCart` then answers 200 with that cart and
no cart items. In a reachable store this is the situation right after a
successful `postOrders` of `u`: the ordered cart is the one found, and
`getMyCart` returns it ACTIVE with zero cart items. -/
theorem reclaim_on_next_touch (s : Store) (u now : Nat) :
    (∀ cart, findUserCart u s = some cart → cart.Status = "ORDERED" →
        (cart ∈ s.carts ∧ cart.UserID = u) ∧
        (ensureActiveCart u now s).2 = .ok { cart with Status := "ACTIVE", Name := "" } ∧
        ({ cart with Status := "ACTIVE", Name := "" } : Cart) ∈ (ensureActiveCart u now s).1.carts ∧
        (∀ ci ∈ (ensureActiveCart u now s).1.cartItems, ci.CartID ≠ cart.ID) ∧
        getMyCart u now s
          = ((ensureActiveCart u now s).1,
              .ok 200 { Cart := { cart with Status := "ACTIVE", Name := "" }, CartItems := [] })) ∧
      (Reachable s → ∀ cartID t0 oid, (postOrders u cartID t0 s).2 = .ok 201 oid →
        ∃ cart, findUserCart u (postOrders u cartID t0 s).1 = some cart ∧
          cart.ID = cartID ∧ cart.Status = "ORDERED" ∧
          (getMyCart u now (postOrders u cartID t0 s).1).2
            = .ok 200 { Cart := { cart with Status := "ACTIVE", Name := "" }, CartItems := [] }) := by
  constructor
  · intro cart hfind hst
    have hm := findUserCart_some u s cart hfind
    refine ⟨hm, ?_, ?_, ?_, getMyCart_ordered s u now cart hfind hst⟩
    · rw [ensureActiveCart_ordered s u now cart hfind hst]
    · rw [ensureActiveCart_ordered s u now cart hfind hst]
      simp only [deleteCartItemsOf, saveCart, List.mem_map]
      exact ⟨cart, hm.1, by simp⟩
    · rw [ensureActiveCart_ordered s u now cart hfind hst]
      intro ci hci
      simp only [deleteCartItemsOf, saveCart, List.mem_filter, bne_iff_ne] at hci
      exact hci.2
  · intro hreach cartID t0 oid hok
    obtain ⟨cart, hfind, hfu⟩ :=
      findUserCart_after_order s (Inv.inv_of_reachable hreach) u cartID t0 201 oid hok
    refine ⟨_, hfu, (findCart_some cartID s cart hfind).2, rfl, ?_⟩
    rw [getMyCart_ordered _ u now _ hfu rfl]

/-- The scenario of the specification: items `[1, 1, 2]`, then the order, then
`GET /carts/me`: the cart comes back ACTIVE and empty. -/
theorem reclaim_on_next_touch_witness :
    (postOrders 7 1 6 (runOps [.initDB 0, .postCarts 7 ⟨0, [1, 1, 2]⟩ 5] emptyStore)).2
        = .ok 201 1 ∧
      (getMyCart 7 8
          (postOrders 7 1 6 (runOps [.initDB 0, .postCarts 7 ⟨0, [1, 1, 2]⟩ 5] emptyStore)).1).2
        = .ok 200 { Cart := ⟨1, 7, "", "ACTIVE", 5⟩, CartItems := [] } ∧
      (ensureActiveCart 7 8
          (runOps [.initDB 0, .postCarts 7 ⟨0, [1, 1, 2]⟩ 5, .postOrders 7 1 6] emptyStore)).2
        = .ok ⟨1, 7, "", "ACTIVE", 5⟩ :=
  ⟨by decide,
    by
      obtain ⟨cart, h1, _, _, h4⟩ :=
        (reclaim_on_next_touch (runOps [.initDB 0, .postCarts 7 ⟨0, [1, 1, 2]⟩ 5] emptyStore)
          7 8).2 (reachable_runOps _ Reachable.empty) 1 6 1 (by decide)
      have hc : cart = ⟨1, 7, "", "ORDERED", 5⟩ :=
        Option.some.inj (h1.symm.trans (by decide))
      rw [h4, hc],
    ((reclaim_on_next_touch
        (runOps [.initDB 0, .postCarts 7 ⟨0, [1, 1, 2]⟩ 5, .postOrders 7 1 6] emptyStore)
        7 8).1 ⟨1, 7, "", "ORDERED", 5⟩ (by decide) (by decide)).2.1⟩

/-! ## C7: a removal that finds nothing -/

theorem findActiveCart_some (u : Nat) (s : Store) (cart : Cart)
    (h : findActiveCart u s = some cart) :
    cart ∈ s.carts ∧ cart.UserID = u ∧ cart.Status = "ACTIVE" := by
  have := firstWhere_some _ _ _ _ h
  simp only [Bool.and_eq_true, beq_iff_eq] at this
  exact ⟨this.1, this.2.1, this.2.2⟩

/-- C7. `deleteCartItem` on a non-zero item id answers 404 and leaves the
store as it was when the user has no cart with status ACTIVE ("no active
cart"), and when the user's ACTIVE cart has no cart-item row for that item
("item not found in cart"). -/
theorem deleteCartItem_not_found (s : Store) (u itemID : Nat) (h0 : itemID ≠ 0) :
    ((∀ c ∈ s.carts, ¬(c.UserID = u ∧ c.Status = "ACTIVE")) →
        deleteCartItem u itemID s = (s, .error 404 "no active cart")) ∧
      ((∃ c ∈ s.carts, c.UserID = u ∧ c.Status = "ACTIVE") →
        ∃ cart, findActiveCart u s = some cart) ∧
      (∀ cart, findActiveCart u s = some cart →
        (cart ∈ s.carts ∧ cart.UserID = u ∧ cart.Status = "ACTIVE") ∧
        ((∀ ci ∈ s.cartItems, ¬(ci.CartID = cart.ID ∧ ci.ItemID = itemID)) →
          deleteCartItem u itemID s = (s, .error 404 "item not found in cart"))) := by
  refine ⟨?_, ?_, ?_⟩
  · intro hno
    have hnone : findActiveCart u s = none := by
      rw [findActiveCart, firstWhere_eq_none_iff]
      intro c hc
      have := hno c hc
      simp only [Bool.and_eq_false_iff, beq_eq_false_iff_ne]
      by_cases hcu : c.UserID = u
      · exact Or.inr (fun hs => this ⟨hcu, hs⟩)
      · exact Or.inl hcu
    simp [deleteCartItem, h0, hnone]
  · rintro ⟨c, hc, hu, hs⟩
    exact firstWhere_exists_of_mem _ _ _ c hc (by simp [hu, hs])
  · intro cart hfind
    refine ⟨findActiveCart_some u s cart hfind, ?_⟩
    intro hno
    have hnone : findCartItem cart.ID itemID s = none := by
      rw [findCartItem, firstWhere_eq_none_iff]
      intro ci hci
      have := hno ci hci
      simp only [Bool.and_eq_false_iff, beq_eq_false_iff_ne]
      by_cases hcc : ci.CartID = cart.ID
      · exact Or.inr (fun hs => this ⟨hcc, hs⟩)
      · exact Or.inl hcc
    simp [deleteCartItem, h0, hfind, hnone]

/-- User 8 has no cart at all; user 7 has an ACTIVE cart holding item 1 but
not item 2: both removals answer 404 and change nothing. -/
theorem deleteCartItem_not_found_witness :
    deleteCartItem 8 1 (runOps [.initDB 0, .postCarts 7 ⟨1, []⟩ 1] emptyStore)
        = (runOps [.initDB 0, .postCarts 7 ⟨1, []⟩ 1] emptyStore,
            .error 404 "no active cart") ∧
      deleteCartItem 7 2 (runOps [.initDB 0, .postCarts 7 ⟨1, []⟩ 1] emptyStore)
        = (runOps [.initDB 0, .postCarts 7 ⟨1, []⟩ 1] emptyStore,
            .error 404 "item not found in cart") :=
  ⟨(deleteCartItem_not_found _ 8 1 (by decide)).1 (by decide),
    ((deleteCartItem_not_found _ 7 2 (by decide)).2.2 ⟨1, 7, "", "ACTIVE", 1⟩
      (by decide)).2 (by decide)⟩

/-! ## C8: a removal that succeeds -/

theorem ItemKeysPos.pos_createItem {s : Store} (h : ItemKeysPos s) (name status : String)
    (now : Nat) : ItemKeysPos (ShoppingBasket.createItem name status now s).1 := by
  refine ⟨?_, h.2⟩
  intro it hit
  simp only [ShoppingBasket.createItem, List.mem_append, List.mem_singleton] at hit
  rcases hit with hit | hit
  · exact h.1 it hit
  · subst hit
    exact Nat.pos_iff_ne_zero.1 (nextID_pos _ _)

theorem ItemKeysPos.pos_of_subset {s t : Store} (h : ItemKeysPos s) (hi : t.items = s.items)
    (hc : ∀ ci ∈ t.cartItems, ci ∈ s.cartItems) : ItemKeysPos t :=
  ⟨fun it hit => h.1 it (hi ▸ hit), fun ci hci => h.2 ci (hc ci hci)⟩

theorem ensureActiveCart_cartItems_subset (u now : Nat) (s : Store) :
    ∀ ci ∈ (ensureActiveCart u now s).1.cartItems, ci ∈ s.cartItems := by
  unfold ensureActiveCart
  split
  · split
    · intro ci hci
      simp only [deleteCartItemsOf, saveCart, List.mem_filter] at hci
      exact hci.1
    · exact fun ci hci => hci
  · unfold createCart
    split
    · exact fun ci hci => hci
    · exact fun ci hci => hci

theorem ItemKeysPos.pos_postCartsLoop (cart : Cart) (ids : List Nat) {s : Store}
    (h : ItemKeysPos s) : ItemKeysPos (ShoppingBasket.postCartsLoop cart ids s).1 := by
  induction ids generalizing s with
  | nil => exact h
  | cons id rest ih =>
    cases hitem : findItem id s with
    | none => rw [postCartsLoop_cons_invalid cart id rest s hitem]; exact h
    | some it =>
      cases hci : findCartItem cart.ID id s with
      | some ci => rw [postCartsLoop_cons_present cart id rest s it ci hitem hci]; exact ih h
      | none =>
        rw [postCartsLoop_cons_absent cart id rest s it hitem hci]
        apply ih
        refine ⟨h.1, ?_⟩
        intro r hr
        simp only [createCartItem, List.mem_append, List.mem_singleton] at hr
        rcases hr with hr | hr
        · exact h.2 r hr
        · subst hr
          have hit := firstWhere_some _ _ _ _ hitem
          simp only [beq_iff_eq] at hit
          exact hit.2 ▸ h.1 it hit.1

theorem ItemKeysPos.pos_run {s : Store} (h : ItemKeysPos s) (op : Op) : ItemKeysPos (op.run s) := by
  cases op with
  | ensureActiveCart u now =>
    exact h.pos_of_subset (ensureActiveCart_frame u now s).1 (ensureActiveCart_cartItems_subset u now s)
  | postCarts u body now =>
    have he : ItemKeysPos (ShoppingBasket.ensureActiveCart u now s).1 :=
      h.pos_of_subset (ensureActiveCart_frame u now s).1 (ensureActiveCart_cartItems_subset u now s)
    by_cases hbody : body.ItemID = 0 ∧ body.ItemIDs.length = 0
    · simpa [Op.run, ShoppingBasket.postCarts, hbody] using h
    · obtain ⟨cart, hcart⟩ := ensureActiveCart_ok u now s
      have hl := ItemKeysPos.pos_postCartsLoop cart body.ids he
      simp only [Op.run, postCarts_eq u body now s cart hbody hcart]
      split
      · exact hl
      · exact hl
  | getMyCart u now =>
    have he : ItemKeysPos (ShoppingBasket.ensureActiveCart u now s).1 :=
      h.pos_of_subset (ensureActiveCart_frame u now s).1 (ensureActiveCart_cartItems_subset u now s)
    simp only [Op.run, ShoppingBasket.getMyCart]
    split
    · rename_i heq
      rw [heq] at he
      exact he
    · rename_i heq
      rw [heq] at he
      exact he
  | postOrders u cartID now =>
    simp only [Op.run, ShoppingBasket.postOrders]
    split
    · exact h
    · split
      · exact h
      · split
        · exact h
        · split
          · exact h
          · split
            · exact h
            · exact h
  | getMyOrders u => exact h
  | deleteCartItem u itemID =>
    simp only [Op.run, ShoppingBasket.deleteCartItem]
    split
    · exact h
    · split
      · exact h
      · split
        · exact h
        · refine h.pos_of_subset rfl ?_
          intro ci hci
          simp only [deleteCartItemRow, List.mem_filter] at hci
          exact hci.1
  | postItems name status now =>
    simp only [Op.run, ShoppingBasket.postItems]
    split
    · exact h
    · exact h.pos_createItem _ _ _
  | initDB now =>
    simp only [Op.run, ShoppingBasket.initDB]
    split
    · exact ((((h.pos_createItem _ _ _).pos_createItem _ _ _).pos_createItem _ _ _).pos_createItem _ _ _).pos_createItem
        _ _ _
    · exact h

theorem ItemKeysPos.pos_of_reachable {s : Store} (h : Reachable s) : ItemKeysPos s := by
  induction h with
  | empty => exact ⟨by simp [emptyStore], by simp [emptyStore]⟩
  | step op _ ih => exact ih.pos_run op

theorem cartItem_eq_of_pair {s : Store} (hinv : Inv s) {r ci : CartItem} (hr : r ∈ s.cartItems)
    (hci : ci ∈ s.cartItems) (h1 : r.CartID = ci.CartID) (h2 : r.ItemID = ci.ItemID) : r = ci :=
  List.inj_on_of_nodup_map hinv.cartItemPairs hr hci (by simp [h1, h2])

theorem cartItem_eq_of_ID {s : Store} (hinv : Inv s) {r ci : CartItem} (hr : r ∈ s.cartItems)
    (hci : ci ∈ s.cartItems) (h : r.ID = ci.ID) : r = ci :=
  List.inj_on_of_nodup_map hinv.cartItemIDs hr hci h

/-- C8. In a reachable store where the user's ACTIVE cart holds a cart-item
row `ci` for the given item, `deleteCartItem` answers 200 with the cart and
its previous cart items minus that item; the cart-item table loses exactly
the row `ci` (one row fewer, every other row kept, no row added), no row for
(cart, item) is left, and carts, catalog and orders are untouched. -/
theorem deleteCartItem_success (s : Store) (u itemID : Nat) (cart : Cart) (ci : CartItem)
    (hreach : Reachable s) (hcart : findActiveCart u s = some cart) (hci : ci ∈ s.cartItems)
    (hc : ci.CartID = cart.ID) (hi : ci.ItemID = itemID) :
    (deleteCartItem u itemID s).2
        = .ok 200 { Cart := cart,
                    CartItems := (cartItemsOf cart.ID s).filter (fun r => r.ItemID != itemID) } ∧
      (deleteCartItem u itemID s).1.cartItems = s.cartItems.erase ci ∧
      (deleteCartItem u itemID s).1.cartItems.length + 1 = s.cartItems.length ∧
      (∀ r ∈ s.cartItems, r ≠ ci → r ∈ (deleteCartItem u itemID s).1.cartItems) ∧
      (∀ r ∈ (deleteCartItem u itemID s).1.cartItems,
        r ∈ s.cartItems ∧ r ≠ ci ∧ ¬(r.CartID = cart.ID ∧ r.ItemID = itemID)) ∧
      (deleteCartItem u itemID s).1.carts = s.carts ∧
      (deleteCartItem u itemID s).1.items = s.items ∧
      (deleteCartItem u itemID s).1.orders = s.orders := by
  have hinv := Inv.inv_of_reachable hreach
  have h0 : itemID ≠ 0 := hi ▸ (ItemKeysPos.pos_of_reachable hreach).2 ci hci
  have hfind : findCartItem cart.ID itemID s = some ci := by
    apply firstWhere_eq_of_unique _ _ _ _ hci (by simp [hc, hi])
    intro x hx hpx
    simp only [Bool.and_eq_true, beq_iff_eq] at hpx
    exact cartItem_eq_of_pair hinv hx hci (hpx.1.trans hc.symm) (hpx.2.trans hi.symm)
  have heq : deleteCartItem u itemID s
      = (deleteCartItemRow ci s,
          .ok 200 { Cart := cart, CartItems := cartItemsOf cart.ID (deleteCartItemRow ci s) }) := by
    simp [deleteCartItem, h0, hcart, hfind]
  have hnodup : s.cartItems.Nodup := List.Nodup.of_map _ hinv.cartItemIDs
  have hrows : (deleteCartItemRow ci s).cartItems = s.cartItems.erase ci := by
    rw [List.Nodup.erase_eq_filter hnodup]
    simp only [deleteCartItemRow]
    apply List.filter_congr
    intro r hr
    by_cases hrc : r = ci
    · simp [hrc]
    · have hid : r.ID ≠ ci.ID := fun hid => hrc (cartItem_eq_of_ID hinv hr hci hid)
      have e1 : (r.ID != ci.ID) = true := by simpa using hid
      have e2 : (r != ci) = true := by simpa using hrc
      rw [e1, e2]
  have hresp : cartItemsOf cart.ID (deleteCartItemRow ci s)
      = (cartItemsOf cart.ID s).filter (fun r => r.ItemID != itemID) := by
    simp only [cartItemsOf, deleteCartItemRow, List.filter_filter]
    apply List.filter_congr
    intro r hr
    by_cases hrc : r.CartID = cart.ID
    · by_cases hri : r.ItemID = itemID
      · have : r = ci := cartItem_eq_of_pair hinv hr hci (hrc.trans hc.symm) (hri.trans hi.symm)
        simp [this, hc, hi]
      · have hid : r.ID ≠ ci.ID := by
          intro hid
          exact hri ((congrArg CartItem.ItemID (cartItem_eq_of_ID hinv hr hci hid)).trans hi)
        have e1 : (r.ID != ci.ID) = true := by simpa using hid
        have e2 : (r.ItemID != itemID) = true := by simpa using hri
        have e3 : (r.CartID == cart.ID) = true := by simpa using hrc
        rw [e1, e2, e3]
    · have e3 : (r.CartID == cart.ID) = false := by simpa using hrc
      rw [e3]
      simp
  rw [heq]
  refine ⟨by rw [hresp], hrows, ?_, ?_, ?_, rfl, rfl, rfl⟩
  · rw [hrows, List.length_erase_of_mem hci]
    have : 0 < s.cartItems.length := List.length_pos_of_mem hci
    omega
  · intro r hr hne
    rw [hrows]
    exact (List.Nodup.mem_erase_iff hnodup).2 ⟨hne, hr⟩
  · intro r hr
    rw [hrows] at hr
    have := (List.Nodup.mem_erase_iff hnodup).1 hr
    refine ⟨this.2, this.1, ?_⟩
    rintro ⟨h1, h2⟩
    exact this.1 (cartItem_eq_of_pair hinv this.2 hci (h1.trans hc.symm) (h2.trans hi.symm))

/-- User 7 holds items 1 and 2 and user 8 holds item 1; user 7 removes item
1: only row 1 goes, the answer lists row 2. -/
theorem deleteCartItem_success_witness :
    (deleteCartItem 7 1
        (runOps [.initDB 0, .postCarts 7 ⟨0, [1, 2]⟩ 1, .postCarts 8 ⟨1, []⟩ 2] emptyStore)).2
        = .ok 200 { Cart := ⟨1, 7, "", "ACTIVE", 1⟩, CartItems := [⟨2, 1, 2⟩] } ∧
      (deleteCartItem 7 1
        (runOps [.initDB 0, .postCarts 7 ⟨0, [1, 2]⟩ 1, .postCarts 8 ⟨1, []⟩ 2]
          emptyStore)).1.cartItems
        = [⟨2, 1, 2⟩, ⟨3, 2, 1⟩] := by
  obtain ⟨h1, h2, _⟩ := deleteCartItem_success
    (runOps [.initDB 0, .postCarts 7 ⟨0, [1, 2]⟩ 1, .postCarts 8 ⟨1, []⟩ 2] emptyStore) 7 1
    ⟨1, 7, "", "ACTIVE", 1⟩ ⟨1, 1, 1⟩ (reachable_runOps _ Reachable.empty) (by decide)
    (by decide) (by decide) (by decide)
  exact ⟨h1.trans (by decide), h2.trans (by decide)⟩

/-! ## The quantity map of `getMyOrders` -/

theorem qtyBump_keys (m : List (Nat × Nat)) (k : Nat) :
    (qtyBump m k).map Prod.fst
      = if k ∈ m.map Prod.fst then m.map Prod.fst else m.map Prod.fst ++ [k] := by
  induction m with
  | nil => simp [qtyBump]
  | cons e rest ih =>
    obtain ⟨k0, q0⟩ := e
    by_cases h : k0 = k
    · simp [qtyBump, h]
    · have hne : ¬ k = k0 := fun h' => h h'.symm
      simp only [qtyBump, h, if_false, List.map_cons, ih, List.mem_cons, hne, false_or]
      split <;> simp

theorem qtyBump_sum (m : List (Nat × Nat)) (k : Nat) :
    ((qtyBump m k).map Prod.snd).sum = (m.map Prod.snd).sum + 1 := by
  induction m with
  | nil => simp [qtyBump]
  | cons e rest ih =>
    obtain ⟨k0, q0⟩ := e
    by_cases h : k0 = k
    · simp [qtyBump, h]; omega
    · simp [qtyBump, h, ih]; omega

theorem qtyBump_mem (m : List (Nat × Nat)) (k : Nat) (hnd : (m.map Prod.fst).Nodup)
    (k' q' : Nat) (h : (k', q') ∈ qtyBump m k) :
    (k' ≠ k ∧ (k', q') ∈ m) ∨
      (k' = k ∧ ((∃ q, (k, q) ∈ m ∧ q' = q + 1) ∨ (k ∉ m.map Prod.fst ∧ q' = 1))) := by
  induction m with
  | nil =>
    simp only [qtyBump, List.mem_singleton, Prod.mk.injEq] at h
    exact Or.inr ⟨h.1, Or.inr ⟨by simp, h.2⟩⟩
  | cons e rest ih =>
    obtain ⟨k0, q0⟩ := e
    simp only [List.map_cons, List.nodup_cons] at hnd
    by_cases hk : k0 = k
    · subst hk
      simp only [qtyBump, if_true, List.mem_cons, Prod.mk.injEq] at h
      rcases h with h | h
      · exact Or.inr ⟨h.1, Or.inl ⟨q0, by simp, h.2⟩⟩
      · have hne : k' ≠ k0 := by
          intro he
          subst he
          exact hnd.1 (List.mem_map_of_mem Prod.fst h)
        exact Or.inl ⟨hne, List.mem_cons_of_mem _ h⟩
    · simp only [qtyBump, hk, if_false, List.mem_cons, Prod.mk.injEq] at h
      rcases h with h | h
      · refine Or.inl ⟨?_, ?_⟩
        · rw [h.1]; exact hk
        · rw [h.1, h.2]; exact List.mem_cons_self _ _
      · rcases ih hnd.2 h with h' | h'
        · exact Or.inl ⟨h'.1, List.mem_cons_of_mem _ h'.2⟩
        · refine Or.inr ⟨h'.1, ?_⟩
          rcases h'.2 with ⟨q, hq, hq'⟩ | ⟨hnot, hq'⟩
          · exact Or.inl ⟨q, List.mem_cons_of_mem _ hq, hq'⟩
          · refine Or.inr ⟨?_, hq'⟩
            simp only [List.map_cons, List.mem_cons, not_or]
            exact ⟨fun he => hk he.symm, hnot⟩

theorem qtyBump_inv (m : List (Nat × Nat)) (l : List Nat) (k : Nat)
    (h1 : (m.map Prod.fst).Nodup) (h2 : ∀ k' q', (k', q') ∈ m → q' = l.count k')
    (h3 : ∀ k', k' ∈ m.map Prod.fst ↔ k' ∈ l) :
    ((qtyBump m k).map Prod.fst).Nodup ∧
      (∀ k' q', (k', q') ∈ qtyBump m k → q' = (l ++ [k]).count k') ∧
      (∀ k', k' ∈ (qtyBump m k).map Prod.fst ↔ k' ∈ l ++ [k]) := by
  refine ⟨?_, ?_, ?_⟩
  · rw [qtyBump_keys]
    split
    · exact h1
    · rename_i hk
      rw [List.nodup_append]
      refine ⟨h1, List.nodup_singleton _, ?_⟩
      intro a ha hb
      simp only [List.mem_singleton] at hb
      subst hb
      exact hk ha
  · intro k' q' hmem
    rw [List.count_append, List.count_singleton]
    rcases qtyBump_mem m k h1 k' q' hmem with ⟨hne, hm⟩ | ⟨he, hcase⟩
    · have : (k == k') = false := by simpa using fun h' => hne h'.symm
      rw [this, h2 k' q' hm]
      simp
    · subst he
      rcases hcase with ⟨q, hq, hq'⟩ | ⟨hnot, hq'⟩
      · rw [hq', h2 k' q hq]
        simp
      · have hz : l.count k' = 0 := by
          rw [List.count_eq_zero]
          exact fun hin => hnot ((h3 k').2 hin)
        rw [hq', hz]
        simp
  · intro k'
    rw [qtyBump_keys]
    split
    · rename_i hk
      simp only [List.mem_append, List.mem_singleton]
      constructor
      · exact fun h => Or.inl ((h3 k').1 h)
      · rintro (h | h)
        · exact (h3 k').2 h
        · rw [h]; exact hk
    · simp only [List.mem_append, List.mem_singleton, h3 k']

theorem qtyFold_inv (cis : List CartItem) (m : List (Nat × Nat)) (l : List Nat)
    (h1 : (m.map Prod.fst).Nodup) (h2 : ∀ k' q', (k', q') ∈ m → q' = l.count k')
    (h3 : ∀ k', k' ∈ m.map Prod.fst ↔ k' ∈ l) :
    (((cis.foldl (fun m ci => qtyBump m ci.ItemID) m).map Prod.fst).Nodup) ∧
      (∀ k' q', (k', q') ∈ cis.foldl (fun m ci => qtyBump m ci.ItemID) m →
        q' = (l ++ cis.map CartItem.ItemID).count k') ∧
      (∀ k', k' ∈ (cis.foldl (fun m ci => qtyBump m ci.ItemID) m).map Prod.fst
        ↔ k' ∈ l ++ cis.map CartItem.ItemID) ∧
      ((cis.foldl (fun m ci => qtyBump m ci.ItemID) m).map Prod.snd).sum
        = (m.map Prod.snd).sum + cis.length := by
  induction cis generalizing m l with
  | nil =>
    refine ⟨h1, ?_, ?_, ?_⟩
    · simpa using h2
    · intro k'
      rw [List.foldl_nil, List.map_nil, List.append_nil]
      exact h3 k'
    · simp
  | cons ci rest ih =>
    obtain ⟨a, b, c⟩ := qtyBump_inv m l ci.ItemID h1 h2 h3
    obtain ⟨a', b', c', d'⟩ := ih (qtyBump m ci.ItemID) (l ++ [ci.ItemID]) a b c
    simp only [List.foldl_cons, List.map_cons, List.length_cons]
    simp only [List.append_assoc, List.singleton_append] at b' c'
    refine ⟨a', b', c', ?_⟩
    rw [d', qtyBump_sum]
    omega

theorem qtyMap_spec (cis : List CartItem) :
    ((qtyMap cis).map Prod.fst).Nodup ∧
      (∀ k q, (k, q) ∈ qtyMap cis → q = (cis.filter (fun ci => ci.ItemID == k)).length) ∧
      (∀ k, k ∈ (qtyMap cis).map Prod.fst ↔ ∃ ci ∈ cis, ci.ItemID = k) ∧
      ((qtyMap cis).map Prod.snd).sum = cis.length := by
  obtain ⟨a, b, c, d⟩ := qtyFold_inv cis [] [] (by simp) (by simp) (by simp)
  refine ⟨a, ?_, ?_, ?_⟩
  · intro k q hkq
    have := b k q hkq
    rw [this, List.nil_append, List.count_eq_countP, List.countP_map,
      List.countP_eq_length_filter]
    rfl
  · intro k
    have := c k
    simp only [List.nil_append, List.mem_map] at this
    simpa [qtyMap] using this
  · simpa [qtyMap] using d

/-! ## C9: the order view -/

theorem mem_ordersOf (u : Nat) (s : Store) (o : Order) :
    o ∈ ordersOf u s ↔ o ∈ s.orders ∧ o.UserID = u := by
  unfold ordersOf
  rw [(List.perm_insertionSort _ _).mem_iff]
  simp

theorem orderDTO_spec (s : Store) (o : Order) :
    (orderDTO s o).ID = o.ID ∧ (orderDTO s o).CreatedAt = o.CreatedAt ∧
      (orderDTO s o).Status = "PLACED" ∧
      ((orderDTO s o).Items.map OrderItemDTO.ItemID).Nodup ∧
      (∀ i, i ∈ (orderDTO s o).Items.map OrderItemDTO.ItemID
        ↔ ∃ ci ∈ s.cartItems, ci.CartID = o.CartID ∧ ci.ItemID = i) ∧
      (∀ e ∈ (orderDTO s o).Items,
        e.Qty = ((cartItemsOf o.CartID s).filter (fun ci => ci.ItemID == e.ItemID)).length ∧
        (∀ it, findItem e.ItemID s = some it → e.Name = it.Name) ∧
        ((∀ it ∈ s.items, it.ID ≠ e.ItemID) → e.Name = "Unknown")) ∧
      ((orderDTO s o).Items.map OrderItemDTO.Qty).sum = (cartItemsOf o.CartID s).length := by
  obtain ⟨a, b, c, d⟩ := qtyMap_spec (cartItemsOf o.CartID s)
  have hkeys : (orderDTO s o).Items.map OrderItemDTO.ItemID
      = (qtyMap (cartItemsOf o.CartID s)).map Prod.fst := by
    simp only [orderDTO, List.map_map]
    apply List.map_congr_left
    intro e _
    rfl
  have hqtys : (orderDTO s o).Items.map OrderItemDTO.Qty
      = (qtyMap (cartItemsOf o.CartID s)).map Prod.snd := by
    simp only [orderDTO, List.map_map]
    apply List.map_congr_left
    intro e _
    rfl
  refine ⟨rfl, rfl, rfl, ?_, ?_, ?_, ?_⟩
  · rw [hkeys]; exact a
  · intro i
    rw [hkeys, c i]
    simp only [cartItemsOf, List.mem_filter, beq_iff_eq]
    constructor
    · rintro ⟨ci, ⟨h1, h2⟩, h3⟩
      exact ⟨ci, h1, h2, h3⟩
    · rintro ⟨ci, h1, h2, h3⟩
      exact ⟨ci, ⟨h1, h2⟩, h3⟩
  · intro e he
    simp only [orderDTO, List.mem_map] at he
    obtain ⟨⟨k, q⟩, hkq, rfl⟩ := he
    refine ⟨b k q hkq, ?_, ?_⟩
    · intro it hit
      have hit' : findItem k s = some it := hit
      simp [orderItemDTO, hit']
    · intro hno
      have hnone : findItem k s = none := by
        rw [findItem, firstWhere_eq_none_iff]
        intro it hit
        have : it.ID ≠ k := hno it hit
        simpa using this
      simp [orderItemDTO, hnone]
  · rw [hqtys]; exact d

/-- C9. On a store whose order ids are a primary key, `getMyOrders` answers
200 with one summary per order row of the user, in strictly descending order
id; each summary carries the order's id and creation time and the status
"PLACED"; its lines have pairwise different item ids, namely the item ids of
the cart-item rows of the order's cart; a line's quantity is the number of
those rows with its item id, so the quantities add up to the number of rows;
and its name is that of the catalog row with the item id, or "Unknown" when
the catalog has no such row. -/
theorem getMyOrders_spec (s : Store) (u : Nat) (hpk : (s.orders.map Order.ID).Nodup) :
    ∃ os dtos,
      getMyOrders u s = .ok 200 dtos ∧
      os.Perm (s.orders.filter (fun o => o.UserID == u)) ∧
      os.Pairwise (fun a b => b.ID < a.ID) ∧
      List.Forall₂ (fun o d =>
        d.ID = o.ID ∧ d.CreatedAt = o.CreatedAt ∧ d.Status = "PLACED" ∧
        (d.Items.map OrderItemDTO.ItemID).Nodup ∧
        (∀ i, i ∈ d.Items.map OrderItemDTO.ItemID
          ↔ ∃ ci ∈ s.cartItems, ci.CartID = o.CartID ∧ ci.ItemID = i) ∧
        (∀ e ∈ d.Items,
          e.Qty = ((cartItemsOf o.CartID s).filter (fun ci => ci.ItemID == e.ItemID)).length ∧
          (∀ it, findItem e.ItemID s = some it → e.Name = it.Name) ∧
          ((∀ it ∈ s.items, it.ID ≠ e.ItemID) → e.Name = "Unknown")) ∧
        (d.Items.map OrderItemDTO.Qty).sum = (cartItemsOf o.CartID s).length) os dtos := by
  haveI : IsTotal Order (fun a b => b.ID ≤ a.ID) := ⟨fun a b => Nat.le_total b.ID a.ID⟩
  haveI : IsTrans Order (fun a b => b.ID ≤ a.ID) := ⟨fun _ _ _ h1 h2 => Nat.le_trans h2 h1⟩
  have hperm : (ordersOf u s).Perm (s.orders.filter (fun o => o.UserID == u)) :=
    List.perm_insertionSort _ _
  have hsorted : (ordersOf u s).Pairwise (fun a b => b.ID ≤ a.ID) :=
    List.sorted_insertionSort (fun a b : Order => b.ID ≤ a.ID) _
  have hnd : ((ordersOf u s).map Order.ID).Nodup :=
    ((hperm.map Order.ID).nodup_iff).2
      (hpk.sublist (List.Sublist.map _ (List.filter_sublist _)))
  have hne : (ordersOf u s).Pairwise (fun a b => a.ID ≠ b.ID) := List.pairwise_map.1 hnd
  refine ⟨ordersOf u s, (ordersOf u s).map (orderDTO s), rfl, hperm, ?_, ?_⟩
  · exact (hsorted.and hne).imp (fun h => Nat.lt_of_le_of_ne h.1 (Ne.symm h.2))
  · rw [List.forall₂_map_right_iff, List.forall₂_same]
    intro o _
    exact orderDTO_spec s o

/-- The scenario of the specification: user 7 adds `[1, 1, 2]` and orders;
the view shows one line per item with quantity 1 and the catalog names. -/
theorem getMyOrders_spec_witness :
    (∃ lines : List OrderItemDTO,
        getMyOrders 7
            (runOps [.initDB 0, .postCarts 7 ⟨0, [1, 1, 2]⟩ 5, .postOrders 7 1 6] emptyStore)
          = .ok 200 [⟨1, 6, "PLACED", lines⟩] ∧
        lines.Perm [⟨1, "Apple", 1⟩, ⟨2, "Milk", 1⟩]) ∧
      ∃ (os : List Order) (dtos : List OrderDTO),
        getMyOrders 7
            (runOps [.initDB 0, .postCarts 7 ⟨0, [1, 1, 2]⟩ 5, .postOrders 7 1 6] emptyStore)
          = .ok 200 dtos ∧
        os.Perm ((runOps [.initDB 0, .postCarts 7 ⟨0, [1, 1, 2]⟩ 5, .postOrders 7 1 6]
          emptyStore).orders.filter (fun o => o.UserID == 7)) ∧
        os.Pairwise (fun a b => b.ID < a.ID) ∧ os.length = dtos.length := by
  refine ⟨⟨[⟨1, "Apple", 1⟩, ⟨2, "Milk", 1⟩], by decide, List.Perm.refl _⟩, ?_⟩
  obtain ⟨os, dtos, h1, h2, h3, h4⟩ := getMyOrders_spec
    (runOps [.initDB 0, .postCarts 7 ⟨0, [1, 1, 2]⟩ 5, .postOrders 7 1 6] emptyStore) 7
    (by decide)
  exact ⟨os, dtos, h1, h2, h3, h4.length_eq⟩

/-! ## C10: an order's lines after the cart is touched -/

theorem orderDTO_items_ne_nil (s : Store) (o : Order)
    (h : ∃ ci ∈ s.cartItems, ci.CartID = o.CartID) : (orderDTO s o).Items ≠ [] := by
  obtain ⟨ci, hci, hc⟩ := h
  have hmem := ((orderDTO_spec s o).2.2.2.2.1 ci.ItemID).2 ⟨ci, hci, hc, rfl⟩
  intro hnil
  rw [hnil] at hmem
  simp at hmem

theorem orderDTO_items_eq_nil (s : Store) (o : Order)
    (h : cartItemsOf o.CartID s = []) : (orderDTO s o).Items = [] := by
  simp [orderDTO, h, qtyMap]

/-! ### Which store each handler leaves -/

theorem ensureActiveCart_cases (u now : Nat) (s : Store) :
    (∃ cart, findUserCart u s = some cart ∧ cart.Status = "ORDERED" ∧
        ensureActiveCart u now s
          = (deleteCartItemsOf cart.ID (saveCart { cart with Status := "ACTIVE", Name := "" } s),
              .ok { cart with Status := "ACTIVE", Name := "" })) ∨
      (∃ cart, findUserCart u s = some cart ∧ cart.Status ≠ "ORDERED" ∧
        ensureActiveCart u now s = (s, .ok cart)) ∨
      (findUserCart u s = none ∧
        ensureActiveCart u now s =
          ({ s with
              carts := s.carts ++ [{ ID := nextID s.cartSeq (s.carts.map Cart.ID), UserID := u,
                                     Name := "", Status := "ACTIVE", CreatedAt := now }],
              cartSeq := nextID s.cartSeq (s.carts.map Cart.ID) },
            .ok { ID := nextID s.cartSeq (s.carts.map Cart.ID), UserID := u, Name := "",
                  Status := "ACTIVE", CreatedAt := now })) := by
  cases hfind : findUserCart u s with
  | some cart =>
    by_cases hst : cart.Status = "ORDERED"
    · exact Or.inl ⟨cart, rfl, hst, ensureActiveCart_ordered s u now cart hfind hst⟩
    · exact Or.inr (Or.inl ⟨cart, rfl, hst, by simp [ensureActiveCart, hfind, hst]⟩)
  | none =>
    refine Or.inr (Or.inr ⟨rfl, ?_⟩)
    rw [← createCart_of_no_cart u now s hfind]
    simp [ensureActiveCart, hfind]

theorem ensureActiveCart_result (u now : Nat) (s : Store) (cart : Cart)
    (h : (ensureActiveCart u now s).2 = .ok cart) :
    cart ∈ (ensureActiveCart u now s).1.carts ∧ cart.UserID = u := by
  rcases ensureActiveCart_cases u now s with ⟨c, hfind, _, heq⟩ | ⟨c, hfind, _, heq⟩ | ⟨_, heq⟩
  · have hm := findUserCart_some u s c hfind
    rw [heq] at h ⊢
    simp only [DbResult.ok.injEq] at h
    subst h
    refine ⟨?_, hm.2⟩
    simp only [deleteCartItemsOf, saveCart, List.mem_map]
    exact ⟨c, hm.1, by simp⟩
  · have hm := findUserCart_some u s c hfind
    rw [heq] at h ⊢
    simp only [DbResult.ok.injEq] at h
    subst h
    exact hm
  · rw [heq] at h ⊢
    simp only [DbResult.ok.injEq] at h
    subst h
    exact ⟨by simp, rfl⟩

theorem ensureActiveCart_carts_persist {s : Store} (hinv : Inv s) (u now : Nat) (c : Cart)
    (hc : c ∈ s.carts) :
    ∃ c' ∈ (ensureActiveCart u now s).1.carts, c'.ID = c.ID ∧ c'.UserID = c.UserID := by
  rcases ensureActiveCart_cases u now s with ⟨cart, hfind, _, heq⟩ | ⟨cart, _, _, heq⟩ | ⟨_, heq⟩
  · have hm := findUserCart_some u s cart hfind
    rw [heq]
    by_cases hid : c.ID = cart.ID
    · have hcc : c = cart := eq_of_ID_eq hinv hc hm.1 hid
      subst hcc
      refine ⟨{ c with Status := "ACTIVE", Name := "" }, ?_, rfl, rfl⟩
      simp only [deleteCartItemsOf, saveCart, List.mem_map]
      exact ⟨c, hc, by simp⟩
    · refine ⟨c, ?_, rfl, rfl⟩
      simp only [deleteCartItemsOf, saveCart, List.mem_map]
      exact ⟨c, hc, by simp [hid]⟩
  · rw [heq]
    exact ⟨c, hc, rfl, rfl⟩
  · rw [heq]
    exact ⟨c, by simp [hc], rfl, rfl⟩

theorem getMyCart_store (u now : Nat) (s : Store) :
    (getMyCart u now s).1 = (ensureActiveCart u now s).1 := by
  unfold getMyCart
  split
  · rename_i heq
    rw [heq]
  · rename_i heq
    rw [heq]

theorem postCarts_cases (u : Nat) (body : PostCartsBody) (now : Nat) (s : Store) :
    (postCarts u body now s).1 = s ∨
      ∃ cart, (ensureActiveCart u now s).2 = .ok cart ∧
        (postCarts u body now s).1
          = (postCartsLoop cart body.ids (ensureActiveCart u now s).1).1 := by
  by_cases hbody : body.ItemID = 0 ∧ body.ItemIDs.length = 0
  · left
    unfold postCarts
    rw [if_pos hbody]
  · right
    obtain ⟨cart, hcart⟩ := ensureActiveCart_ok u now s
    refine ⟨cart, hcart, ?_⟩
    rw [postCarts_eq u body now s cart hbody hcart]
    split <;> rfl

theorem postOrders_cases (u cartID now : Nat) (s : Store) :
    (postOrders u cartID now s).1 = s ∨
      ∃ cart : Cart, (postOrders u cartID now s).1
        = updateCartStatus cart.ID "ORDERED" (createOrder cart.ID u now s).1 := by
  by_cases h0 : cartID = 0
  · exact Or.inl (by simp [postOrders, h0])
  · cases hfind : findCart cartID s with
    | none => exact Or.inl (by simp [postOrders, h0, hfind])
    | some cart =>
      by_cases hu : cart.UserID = u
      · by_cases hst : cart.Status = "ORDERED"
        · exact Or.inl (by simp [postOrders, h0, hfind, hu, hst])
        · by_cases hz : (cartItemsOf cart.ID s).length = 0
          · exact Or.inl (by simp [postOrders, h0, hfind, hu, hst, hz])
          · exact Or.inr ⟨cart, by rw [postOrders_placed s u cartID now cart h0 hfind hu hst hz]⟩
      · exact Or.inl (by simp [postOrders, h0, hfind, hu])

theorem deleteCartItem_cases (u itemID : Nat) (s : Store) :
    (deleteCartItem u itemID s).1 = s ∨
      ∃ ci : CartItem, (deleteCartItem u itemID s).1 = deleteCartItemRow ci s := by
  by_cases h0 : itemID = 0
  · exact Or.inl (by simp [deleteCartItem, h0])
  · cases hcart : findActiveCart u s with
    | none => exact Or.inl (by simp [deleteCartItem, h0, hcart])
    | some cart =>
      cases hci : findCartItem cart.ID itemID s with
      | none => exact Or.inl (by simp [deleteCartItem, h0, hcart, hci])
      | some ci => exact Or.inr ⟨ci, by simp [deleteCartItem, h0, hcart, hci]⟩

theorem postItems_frame (name status : String) (now : Nat) (s : Store) :
    (postItems name status now s).1.carts = s.carts ∧
      (postItems name status now s).1.cartItems = s.cartItems ∧
      (postItems name status now s).1.orders = s.orders := by
  unfold postItems
  split
  · exact ⟨rfl, rfl, rfl⟩
  · exact ⟨rfl, rfl, rfl⟩

theorem initDB_frame (now : Nat) (s : Store) :
    (initDB now s).carts = s.carts ∧ (initDB now s).cartItems = s.cartItems ∧
      (initDB now s).orders = s.orders := by
  unfold initDB
  split
  · exact ⟨rfl, rfl, rfl⟩
  · exact ⟨rfl, rfl, rfl⟩

/-! ### What every operation keeps -/

theorem run_orders_persist (op : Op) (s : Store) (o : Order) (ho : o ∈ s.orders) :
    o ∈ (op.run s).orders := by
  cases op with
  | ensureActiveCart u now =>
    show o ∈ (ensureActiveCart u now s).1.orders
    rw [(ensureActiveCart_frame u now s).2]; exact ho
  | postCarts u body now =>
    show o ∈ (postCarts u body now s).1.orders
    rcases postCarts_cases u body now s with h | ⟨cart, _, h⟩
    · rw [h]; exact ho
    · rw [h, (postCartsLoop_frame cart body.ids _).2.2, (ensureActiveCart_frame u now s).2]
      exact ho
  | getMyCart u now =>
    show o ∈ (getMyCart u now s).1.orders
    rw [getMyCart_store, (ensureActiveCart_frame u now s).2]; exact ho
  | postOrders u cartID now =>
    show o ∈ (postOrders u cartID now s).1.orders
    rcases postOrders_cases u cartID now s with h | ⟨cart, h⟩
    · rw [h]; exact ho
    · rw [h]
      simp only [updateCartStatus, createOrder, List.mem_append]
      exact Or.inl ho
  | getMyOrders u => exact ho
  | deleteCartItem u itemID =>
    show o ∈ (deleteCartItem u itemID s).1.orders
    rcases deleteCartItem_cases u itemID s with h | ⟨ci, h⟩
    · rw [h]; exact ho
    · rw [h]; exact ho
  | postItems name status now =>
    show o ∈ (postItems name status now s).1.orders
    rw [(postItems_frame name status now s).2.2]; exact ho
  | initDB now =>
    show o ∈ (initDB now s).orders
    rw [(initDB_frame now s).2.2]; exact ho

theorem run_carts_persist (op : Op) {s : Store} (hinv : Inv s) (c : Cart) (hc : c ∈ s.carts) :
    ∃ c' ∈ (op.run s).carts, c'.ID = c.ID ∧ c'.UserID = c.UserID := by
  cases op with
  | ensureActiveCart u now => exact ensureActiveCart_carts_persist hinv u now c hc
  | postCarts u body now =>
    show ∃ c' ∈ (postCarts u body now s).1.carts, c'.ID = c.ID ∧ c'.UserID = c.UserID
    rcases postCarts_cases u body now s with h | ⟨cart, _, h⟩
    · rw [h]; exact ⟨c, hc, rfl, rfl⟩
    · rw [h, (postCartsLoop_frame cart body.ids _).2.1]
      exact ensureActiveCart_carts_persist hinv u now c hc
  | getMyCart u now =>
    show ∃ c' ∈ (getMyCart u now s).1.carts, c'.ID = c.ID ∧ c'.UserID = c.UserID
    rw [getMyCart_store]
    exact ensureActiveCart_carts_persist hinv u now c hc
  | postOrders u cartID now =>
    show ∃ c' ∈ (postOrders u cartID now s).1.carts, c'.ID = c.ID ∧ c'.UserID = c.UserID
    rcases postOrders_cases u cartID now s with h | ⟨cart, h⟩
    · rw [h]; exact ⟨c, hc, rfl, rfl⟩
    · rw [h]
      by_cases hid : c.ID = cart.ID
      · refine ⟨{ c with Status := "ORDERED" }, ?_, rfl, rfl⟩
        simp only [updateCartStatus, createOrder, List.mem_map]
        exact ⟨c, hc, by simp [hid]⟩
      · refine ⟨c, ?_, rfl, rfl⟩
        simp only [updateCartStatus, createOrder, List.mem_map]
        exact ⟨c, hc, by simp [hid]⟩
  | getMyOrders u => exact ⟨c, hc, rfl, rfl⟩
  | deleteCartItem u itemID =>
    show ∃ c' ∈ (deleteCartItem u itemID s).1.carts, c'.ID = c.ID ∧ c'.UserID = c.UserID
    rcases deleteCartItem_cases u itemID s with h | ⟨ci, h⟩
    · rw [h]; exact ⟨c, hc, rfl, rfl⟩
    · rw [h]; exact ⟨c, hc, rfl, rfl⟩
  | postItems name status now =>
    show ∃ c' ∈ (postItems name status now s).1.carts, c'.ID = c.ID ∧ c'.UserID = c.UserID
    rw [(postItems_frame name status now s).1]; exact ⟨c, hc, rfl, rfl⟩
  | initDB now =>
    show ∃ c' ∈ (initDB now s).carts, c'.ID = c.ID ∧ c'.UserID = c.UserID
    rw [(initDB_frame now s).1]; exact ⟨c, hc, rfl, rfl⟩

theorem run_keeps_cart_empty (op : Op) {s : Store} (hinv : Inv s) (u cartID : Nat)
    (hop : op.isPostCartsBy u = false)
    (hc : ∃ c ∈ s.carts, c.ID = cartID ∧ c.UserID = u)
    (hempty : ∀ ci ∈ s.cartItems, ci.CartID ≠ cartID) :
    ∀ ci ∈ (op.run s).cartItems, ci.CartID ≠ cartID := by
  cases op with
  | ensureActiveCart v now =>
    exact fun ci hci => hempty ci (ensureActiveCart_cartItems_subset v now s ci hci)
  | postCarts v body now =>
    have hv : v ≠ u := by simpa [Op.isPostCartsBy] using hop
    show ∀ ci ∈ (postCarts v body now s).1.cartItems, ci.CartID ≠ cartID
    rcases postCarts_cases v body now s with h | ⟨cart, hcart, h⟩
    · rw [h]; exact hempty
    · rw [h]
      obtain ⟨added, hadd, haddp⟩ := postCartsLoop_added cart body.ids (ensureActiveCart v now s).1
      rw [hadd]
      intro ci hci
      simp only [List.mem_append] at hci
      rcases hci with hci | hci
      · exact hempty ci (ensureActiveCart_cartItems_subset v now s ci hci)
      · intro hid
        obtain ⟨c0, hc0, hid0, hu0⟩ := hc
        obtain ⟨c1, hc1, hid1, hu1⟩ := ensureActiveCart_carts_persist hinv v now c0 hc0
        have hres := ensureActiveCart_result v now s cart hcart
        have hsame : cart = c1 :=
          eq_of_ID_eq (hinv.inv_ensureActiveCart v now) hres.1 hc1
            (((haddp ci hci).1.symm.trans hid).trans (hid1.trans hid0).symm)
        exact hv (hres.2.symm.trans ((congrArg Cart.UserID hsame).trans (hu1.trans hu0)))
  | getMyCart v now =>
    show ∀ ci ∈ (getMyCart v now s).1.cartItems, ci.CartID ≠ cartID
    rw [getMyCart_store]
    exact fun ci hci => hempty ci (ensureActiveCart_cartItems_subset v now s ci hci)
  | postOrders v cid now =>
    show ∀ ci ∈ (postOrders v cid now s).1.cartItems, ci.CartID ≠ cartID
    rcases postOrders_cases v cid now s with h | ⟨cart, h⟩
    · rw [h]; exact hempty
    · rw [h]; exact hempty
  | getMyOrders v => exact hempty
  | deleteCartItem v itemID =>
    show ∀ ci ∈ (deleteCartItem v itemID s).1.cartItems, ci.CartID ≠ cartID
    rcases deleteCartItem_cases v itemID s with h | ⟨row, h⟩
    · rw [h]; exact hempty
    · rw [h]
      intro ci hci
      simp only [deleteCartItemRow, List.mem_filter] at hci
      exact hempty ci hci.1
  | postItems name status now =>
    show ∀ ci ∈ (postItems name status now s).1.cartItems, ci.CartID ≠ cartID
    rw [(postItems_frame name status now s).2.1]; exact hempty
  | initDB now =>
    show ∀ ci ∈ (initDB now s).cartItems, ci.CartID ≠ cartID
    rw [(initDB_frame now s).2.1]; exact hempty

theorem runOps_keeps_order_and_cart (ops : List Op) {s : Store} (hreach : Reachable s)
    (o : Order) (u cartID : Nat) (ho : o ∈ s.orders)
    (hc : ∃ c ∈ s.carts, c.ID = cartID ∧ c.UserID = u) :
    o ∈ (runOps ops s).orders ∧ ∃ c ∈ (runOps ops s).carts, c.ID = cartID ∧ c.UserID = u := by
  induction ops generalizing s with
  | nil => exact ⟨ho, hc⟩
  | cons op rest ih =>
    obtain ⟨c, hcm, hid, hu⟩ := hc
    obtain ⟨c', hcm', hid', hu'⟩ := run_carts_persist op (Inv.inv_of_reachable hreach) c hcm
    exact ih (Reachable.step op hreach) (run_orders_persist op s o ho)
      ⟨c', hcm', hid'.trans hid, hu'.trans hu⟩

theorem runOps_keeps_cart_empty (ops : List Op) {s : Store} (hreach : Reachable s)
    (u cartID : Nat) (hops : ∀ op ∈ ops, op.isPostCartsBy u = false)
    (hc : ∃ c ∈ s.carts, c.ID = cartID ∧ c.UserID = u)
    (hempty : ∀ ci ∈ s.cartItems, ci.CartID ≠ cartID) :
    ∀ ci ∈ (runOps ops s).cartItems, ci.CartID ≠ cartID := by
  induction ops generalizing s with
  | nil => exact hempty
  | cons op rest ih =>
    have hinv := Inv.inv_of_reachable hreach
    have hop := hops op (List.mem_cons_self _ _)
    obtain ⟨c, hcm, hid, hu⟩ := hc
    obtain ⟨c', hcm', hid', hu'⟩ := run_carts_persist op hinv c hcm
    exact ih (Reachable.step op hreach) (fun op' h' => hops op' (List.mem_cons_of_mem _ h'))
      ⟨c', hcm', hid'.trans hid, hu'.trans hu⟩
      (run_keeps_cart_empty op hinv u cartID hop ⟨c, hcm, hid, hu⟩ hempty)

/-- C10 (as the code has it). In a reachable store, let user `u` place an
order successfully. Right after the order `getMyOrders` lists it with a
non-empty list of lines. Let any operations `ops1` follow, after which
`getMyCart` of `u` finds the user's cart ORDERED: it is the ordered cart, and
the call resets it (200, status ACTIVE, no cart items). Let then any operations
`ops2` follow of which none is a `postCarts` call of `u`. Then `getMyOrders`
still lists the order, and every summary with that order id has an empty list
of lines. -/
theorem order_items_lost_after_cart_touch (s : Store) (u cartID t0 t1 oid : Nat)
    (ops1 ops2 : List Op) (c : Cart)
    (hreach : Reachable s) (hok : (postOrders u cartID t0 s).2 = .ok 201 oid)
    (htouch : findUserCart u (runOps ops1 (postOrders u cartID t0 s).1) = some c)
    (hord : c.Status = "ORDERED")
    (hops : ∀ op ∈ ops2, op.isPostCartsBy u = false) :
    ∃ before after,
      getMyOrders u (postOrders u cartID t0 s).1 = .ok 200 before ∧
      (∃ d ∈ before, d.ID = oid ∧ d.Items ≠ []) ∧
      c.ID = cartID ∧
      (getMyCart u t1 (runOps ops1 (postOrders u cartID t0 s).1)).2
        = .ok 200 { Cart := { c with Status := "ACTIVE", Name := "" }, CartItems := [] } ∧
      getMyOrders u
          (runOps ops2 (getMyCart u t1 (runOps ops1 (postOrders u cartID t0 s).1)).1)
        = .ok 200 after ∧
      (∃ d ∈ after, d.ID = oid) ∧
      (∀ d ∈ after, d.ID = oid → d.Items = []) := by
  have hinv := Inv.inv_of_reachable hreach
  obtain ⟨cart, h0, hfind, hu, hst, hne⟩ := postOrders_ok s u cartID t0 201 oid hok
  have hm := findCart_some cartID s cart hfind
  have hplaced := postOrders_placed s u cartID t0 cart h0 hfind hu hst hne
  have hoid : (createOrder cart.ID u t0 s).2.ID = oid := by
    rw [hplaced] at hok
    simpa using hok
  have hreach1 : Reachable (postOrders u cartID t0 s).1 :=
    Reachable.step (.postOrders u cartID t0) hreach
  have ho1 : (createOrder cart.ID u t0 s).2 ∈ (postOrders u cartID t0 s).1.orders := by
    rw [hplaced]
    simp [updateCartStatus, createOrder]
  have hci1 : (postOrders u cartID t0 s).1.cartItems = s.cartItems := by
    rw [hplaced]
    rfl
  have hc1 : ∃ c0 ∈ (postOrders u cartID t0 s).1.carts, c0.ID = cart.ID ∧ c0.UserID = u := by
    refine ⟨{ cart with Status := "ORDERED" }, ?_, rfl, hu⟩
    rw [hplaced]
    simp only [updateCartStatus, createOrder, List.mem_map]
    exact ⟨cart, hm.1, by simp⟩
  -- the store at the cart read
  have hreachT := reachable_runOps ops1 hreach1
  have hinvT := Inv.inv_of_reachable hreachT
  obtain ⟨hoT, c0, hc0, hid0, hu0⟩ :=
    runOps_keeps_order_and_cart ops1 hreach1 (createOrder cart.ID u t0 s).2 u cart.ID ho1 hc1
  have hmc := findUserCart_some u _ c htouch
  have hcc : c = c0 := eq_of_UserID_eq hinvT hmc.1 hc0 (hmc.2.trans hu0.symm)
  have hcid : c.ID = cart.ID := (congrArg Cart.ID hcc).trans hid0
  have hresp := getMyCart_ordered _ u t1 c htouch hord
  have hs2 : (getMyCart u t1 (runOps ops1 (postOrders u cartID t0 s).1)).1
      = deleteCartItemsOf c.ID
          (saveCart { c with Status := "ACTIVE", Name := "" }
            (runOps ops1 (postOrders u cartID t0 s).1)) := by
    rw [hresp, ensureActiveCart_ordered _ u t1 c htouch hord]
  have hreach2 : Reachable (getMyCart u t1 (runOps ops1 (postOrders u cartID t0 s).1)).1 :=
    Reachable.step (.getMyCart u t1) hreachT
  have ho2 : (createOrder cart.ID u t0 s).2
      ∈ (getMyCart u t1 (runOps ops1 (postOrders u cartID t0 s).1)).1.orders :=
    run_orders_persist (.getMyCart u t1) _ _ hoT
  have hc2 : ∃ c2 ∈ (getMyCart u t1 (runOps ops1 (postOrders u cartID t0 s).1)).1.carts,
      c2.ID = cart.ID ∧ c2.UserID = u := by
    obtain ⟨c2, hc2m, hid2, hu2⟩ := run_carts_persist (.getMyCart u t1) hinvT c0 hc0
    exact ⟨c2, hc2m, hid2.trans hid0, hu2.trans hu0⟩
  have hempty2 : ∀ ci ∈ (getMyCart u t1 (runOps ops1 (postOrders u cartID t0 s).1)).1.cartItems,
      ci.CartID ≠ cart.ID := by
    rw [hs2]
    intro ci hci
    simp only [deleteCartItemsOf, saveCart, List.mem_filter, bne_iff_ne] at hci
    exact fun h => hci.2 (h.trans hcid.symm)
  -- the store at the last read
  have hreach3 := reachable_runOps ops2 hreach2
  have hinv3 := Inv.inv_of_reachable hreach3
  have ho3 := (runOps_keeps_order_and_cart ops2 hreach2 _ u cart.ID ho2 hc2).1
  have hempty3 := runOps_keeps_cart_empty ops2 hreach2 u cart.ID hops hc2 hempty2
  have hnil3 : cartItemsOf cart.ID
      (runOps ops2 (getMyCart u t1 (runOps ops1 (postOrders u cartID t0 s).1)).1) = [] := by
    simp only [cartItemsOf, List.filter_eq_nil_iff, beq_iff_eq]
    exact hempty3
  refine ⟨_, _, rfl, ?_, hcid.trans hm.2, ?_, rfl, ?_, ?_⟩
  · refine ⟨orderDTO (postOrders u cartID t0 s).1 (createOrder cart.ID u t0 s).2, ?_, hoid, ?_⟩
    · exact List.mem_map_of_mem _ ((mem_ordersOf _ _ _).2 ⟨ho1, rfl⟩)
    · apply orderDTO_items_ne_nil
      rw [hci1]
      have hpos : (cartItemsOf cart.ID s) ≠ [] := fun hnil => hne (by rw [hnil]; rfl)
      obtain ⟨ci, hci⟩ := List.exists_mem_of_ne_nil _ hpos
      simp only [cartItemsOf, List.mem_filter, beq_iff_eq] at hci
      exact ⟨ci, hci.1, hci.2⟩
  · rw [hresp]
  · refine ⟨orderDTO
      (runOps ops2 (getMyCart u t1 (runOps ops1 (postOrders u cartID t0 s).1)).1)
      (createOrder cart.ID u t0 s).2, ?_, hoid⟩
    exact List.mem_map_of_mem _ ((mem_ordersOf _ _ _).2 ⟨ho3, rfl⟩)
  · intro d hd hid
    simp only [List.mem_map] at hd
    obtain ⟨o, ho, rfl⟩ := hd
    have hom := (mem_ordersOf _ _ _).1 ho
    have heq : o = (createOrder cart.ID u t0 s).2 :=
      List.inj_on_of_nodup_map hinv3.orderIDs hom.1 ho3 (hid.trans hoid.symm)
    apply orderDTO_items_eq_nil
    rw [heq]
    exact hnil3

/-- The claim as written fails: user 7 orders items 1 and 2, reads the cart
(it comes back ACTIVE and empty) and adds item 3. No further order has been
placed, and the view lists order 1 with one line, Bread. -/
theorem order_items_replaced_after_add :
    (postOrders 7 1 6 (runOps [.initDB 0, .postCarts 7 ⟨0, [1, 1, 2]⟩ 5] emptyStore)).2
        = .ok 201 1 ∧
      (getMyCart 7 8
          (runOps [.initDB 0, .postCarts 7 ⟨0, [1, 1, 2]⟩ 5, .postOrders 7 1 6] emptyStore)).2
        = .ok 200 { Cart := ⟨1, 7, "", "ACTIVE", 5⟩, CartItems := [] } ∧
      (runOps [.initDB 0, .postCarts 7 ⟨0, [1, 1, 2]⟩ 5, .postOrders 7 1 6, .getMyCart 7 8,
          .postCarts 7 ⟨3, []⟩ 9] emptyStore).orders
        = [⟨1, 1, 7, 6⟩] ∧
      getMyOrders 7
          (runOps [.initDB 0, .postCarts 7 ⟨0, [1, 1, 2]⟩ 5, .postOrders 7 1 6, .getMyCart 7 8,
            .postCarts 7 ⟨3, []⟩ 9] emptyStore)
        = .ok 200 [⟨1, 6, "PLACED", [⟨3, "Bread", 1⟩]⟩] := by
  decide

/-- The scenario of the specification, read on: after the order the view
shows Apple and Milk; user 8 reads a cart, user 7 reads the cart, then user
8 adds item 2 and user 7 reads the cart again; the order is listed without
lines. -/
theorem order_items_lost_after_cart_touch_witness :
    getMyOrders 7
        (runOps [.postCarts 8 ⟨2, []⟩ 10, .getMyCart 7 11]
          (getMyCart 7 8
            (runOps [.getMyCart 8 7]
              (postOrders 7 1 6
                (runOps [.initDB 0, .postCarts 7 ⟨0, [1, 1, 2]⟩ 5] emptyStore)).1)).1)
        = .ok 200 [⟨1, 6, "PLACED", []⟩] ∧
      ∃ (before after : List OrderDTO),
        getMyOrders 7
            (postOrders 7 1 6 (runOps [.initDB 0, .postCarts 7 ⟨0, [1, 1, 2]⟩ 5] emptyStore)).1
          = .ok 200 before ∧
        (∃ d ∈ before, d.ID = 1 ∧ d.Items ≠ []) ∧
        (⟨1, 7, "", "ORDERED", 5⟩ : Cart).ID = 1 ∧
        (getMyCart 7 8
            (runOps [.getMyCart 8 7]
              (postOrders 7 1 6
                (runOps [.initDB 0, .postCarts 7 ⟨0, [1, 1, 2]⟩ 5] emptyStore)).1)).2
          = .ok 200 { Cart := { (⟨1, 7, "", "ORDERED", 5⟩ : Cart) with
                                Status := "ACTIVE", Name := "" },
                      CartItems := [] } ∧
        getMyOrders 7
            (runOps [.postCarts 8 ⟨2, []⟩ 10, .getMyCart 7 11]
              (getMyCart 7 8
                (runOps [.getMyCart 8 7]
                  (postOrders 7 1 6
                    (runOps [.initDB 0, .postCarts 7 ⟨0, [1, 1, 2]⟩ 5] emptyStore)).1)).1)
          = .ok 200 after ∧
        (∃ d ∈ after, d.ID = 1) ∧
        (∀ d ∈ after, d.ID = 1 → d.Items = []) :=
  ⟨by decide,
    order_items_lost_after_cart_touch
      (runOps [.initDB 0, .postCarts 7 ⟨0, [1, 1, 2]⟩ 5] emptyStore) 7 1 6 8 1
      [.getMyCart 8 7] [.postCarts 8 ⟨2, []⟩ 10, .getMyCart 7 11] ⟨1, 7, "", "ORDERED", 5⟩
      (reachable_runOps _ Reachable.empty) (by decide) (by decide) (by decide) (by decide)⟩

end ShoppingBasket
